import Mathlib

/-!
# TINYPCX: a shallow embedding of `tinypcx.c`

The decoder reads an 8 bit, single plane PCX image through the C `stdio`
stream interface.  The embedding keeps the names of the C source.

Modelling conventions

* a byte is a `Nat` (below 256 in a real file); a file is the list of its bytes;
* a `FILE` is the content of the file together with the file position
  indicator, a signed `long` in C and an `Int` here;
* the caller's buffers (`scanline`, `palette`) are memories indexed from the
  pointer that is passed in, `Nat → Nat` resp. `Nat → PCXPaletteEntry`, so a
  store beyond the intended extent of a buffer is visible in the model;
* `int` (the loop counter `count`) is a mathematical integer: its values stay
  below `65535 + 63`;
* `pcx_uint16` fields are reduced modulo `65536` where the C code computes them;
* return codes are the `#define`d numbers of `tinypcx.h`.
-/

namespace TinyPCX

/-! ## Constants of `tinypcx.h` and `tinypcx.c` -/

def PCX_ERR_NONE : Nat := 0
def PCX_ERR_OPEN : Nat := 1
def PCX_ERR_INVALID : Nat := 2
def PCX_ERR_UNSUPPORTED : Nat := 3
def PCX_ERR_USAGE : Nat := 4
def PCX_PALETTE_16 : Nat := 16
def PCX_PALETTE_256 : Nat := 256

def FILE_IDENTIFICATION : Nat := 10
def FILE_DATA_OFFSET : Int := 128
def RLE_LEN_FLAG : Nat := 0xC0
def RLE_LEN_MASK : Nat := 0x3F
def PALETTE_FLAG_OFFSET : Int := -3 * 256 - 1
def PALETTE_FLAG : Nat := 0x0C

/-- Size in bytes of `PCXFileHeader`: 4 single bytes, `coords[4]`, `dpi[2]`,
`color_map[16]` (3 bytes each), 2 single bytes and 4 16-bit words.  Every
16-bit member sits at an even offset, so the struct has no padding. -/
def sizeof_PCXFileHeader : Nat := 4 + 8 + 4 + 48 + 2 + 8

/-- Value of `offsetof(PCXFileHeader, color_map)`. -/
def offsetof_color_map : Int := 16

/-! ## The byte stream (`FILE *`) -/

/-- A stream opened for reading: the bytes of the file and the file position
indicator.  The indicator is the signed `long` that `ftell` reports. -/
structure FILE where
  bytes : List Nat
  pos : Int
deriving DecidableEq

/-- The bytes from the position indicator to the end of the file: what
successive one byte reads deliver.  Nothing can be read at a position outside
the file. -/
def unread (f : FILE) : List Nat :=
  if f.pos < 0 then [] else f.bytes.drop f.pos.toNat

/-- The call `ftell(f)`. -/
def ftell (f : FILE) : Int := f.pos

/-- The call `fseek(f, offset, SEEK_SET)`. -/
def fseek_set (f : FILE) (offset : Int) : FILE := { f with pos := offset }

/-- The call `fseek(f, offset, SEEK_END)`: the indicator becomes the length of
the file plus the signed offset.  A request for a position before the start of
the file cannot be satisfied: the call fails and leaves the indicator where it
was.  The source ignores the return value of `fseek`, so only the stream after
the call is modelled. -/
def fseek_end (f : FILE) (offset : Int) : FILE :=
  if (f.bytes.length : Int) + offset < 0 then f
  else { f with pos := (f.bytes.length : Int) + offset }

/-- The call `fread(&byte, 1, 1, f)`: `none` when no byte is transferred (the
result is not 1), else the byte read; the indicator moves past a byte read. -/
def fread_byte (f : FILE) : Option Nat × FILE :=
  match unread f with
  | [] => (none, f)
  | b :: _ => (some b, { f with pos := f.pos + 1 })

/-- Number of bytes that `fread(buf, size, n, f)` transfers: all `size * n`
requested bytes, or as many as the file still holds. -/
def fread_count (f : FILE) (size n : Nat) : Nat := min (size * n) (unread f).length

/-- The call `fread(buf, size, n, f)` on a byte memory `buf`: the bytes
transferred overwrite the start of `buf`, the rest of `buf` keeps its content. -/
def fread_block (f : FILE) (size n : Nat) (buf : Nat → Nat) : FILE × (Nat → Nat) :=
  let k := fread_count f size n
  ({ f with pos := f.pos + k }, fun i => if i < k then (unread f).getD i 0 else buf i)

/-! ## Data types of `tinypcx.h` -/

structure PCXPaletteEntry where
  red : Nat
  green : Nat
  blue : Nat
deriving DecidableEq, Repr

/-- The decoder handle `PCXFile`. -/
structure PCXFile where
  file : FILE
  width : Nat
  height : Nat
  scanlines_read : Nat
  palette_size : Nat
  version : Nat
deriving DecidableEq

/-- Little-endian 16-bit member at byte offset `off` of the header struct,
the struct being the byte memory `hdr`. -/
def header_u16 (hdr : Nat → Nat) (off : Nat) : Nat :=
  hdr off + 256 * hdr (off + 1)

/-- The expression `coords[hi] - coords[lo] + 1` stored into a `pcx_uint16`:
the operands are promoted to `int`, the result is reduced modulo `65536`. -/
def extent (cmax cmin : Nat) : Nat :=
  (((cmax : Int) - (cmin : Int) + 1) % 65536).toNat

/-! ## `pcx_open_file` -/

/-- The function `pcx_open_file`.  `contents` is what `fopen(filename, "rb")`
finds: `none` when the file cannot be opened, else its bytes.  `data` is the
caller's struct before the call.  Returns the error code and the struct after
the call.  `fclose` and the `getch()` of the identification check have no
effect on the fields modelled; when `fopen` fails the field `file` (a null
pointer in C) is left as it was in `data`. -/
def pcx_open_file (contents : Option (List Nat)) (data : PCXFile) : Nat × PCXFile :=
  let data := { data with scanlines_read := 0, palette_size := 0 }
  match contents with
  | none => (PCX_ERR_OPEN, data)
  | some bytes =>
    let data := { data with file := ⟨bytes, 0⟩ }
    -- fread(&header, sizeof(PCXFileHeader), 1, data->file) != 1
    let complete := fread_count data.file sizeof_PCXFileHeader 1 = sizeof_PCXFileHeader
    -- the local `header` is only used once all its bytes have been read
    let r := fread_block data.file sizeof_PCXFileHeader 1 (fun _ => 0)
    let data := { data with file := r.1 }
    let header := r.2
    if ¬ complete then (PCX_ERR_INVALID, data)
    -- identification at offset 0, bpp at offset 3, plane_count at offset 65
    else if header 0 ≠ FILE_IDENTIFICATION then (PCX_ERR_INVALID, data)
    else if header 3 ≠ 8 then (PCX_ERR_UNSUPPORTED, data)
    else if header 65 ≠ 1 then (PCX_ERR_UNSUPPORTED, data)
    else
      -- coords[0..3] at offsets 4, 6, 8, 10; pcx_version at offset 1
      let data := { data with
        width := extent (header_u16 header 8) (header_u16 header 4)
        height := extent (header_u16 header 10) (header_u16 header 6)
        version := header 1 }
      (PCX_ERR_NONE, { data with file := fseek_set data.file FILE_DATA_OFFSET })

/-! ## `pcx_read_scanline` -/

/-- The inner loop `while(rcount --> 0) scanline[count++] = byte;`: returns
the final `count` and the buffer. -/
def writeRun : Nat → Nat → Nat → (Nat → Nat) → Nat × (Nat → Nat)
  | 0, _, count, scanline => (count, scanline)
  | rcount + 1, byte, count, scanline =>
    writeRun rcount byte (count + 1) (Function.update scanline count byte)

/-- State at the exit of the decoding loop of `pcx_read_scanline`. -/
structure LoopResult where
  err : Nat
  consumed : Nat
  count : Nat
  scanline : Nat → Nat

/-- The loop `while(count < data->width) { ... }` of `pcx_read_scanline`, run
on the unread bytes of the stream.  `consumed` counts the bytes read so far
in this call.  Every iteration that does not return reads at least one byte,
so the recursion is on the unread bytes. -/
def decodeLoop (width : Nat) : List Nat → Nat → Nat → (Nat → Nat) → LoopResult
  | [], consumed, count, scanline =>
    if count < width then ⟨PCX_ERR_INVALID, consumed, count, scanline⟩
    else ⟨PCX_ERR_NONE, consumed, count, scanline⟩
  | byte :: rest, consumed, count, scanline =>
    if count < width then
      if byte &&& RLE_LEN_FLAG = RLE_LEN_FLAG then
        match rest with
        | [] => ⟨PCX_ERR_INVALID, consumed + 1, count, scanline⟩
        | byte2 :: rest2 =>
          let w := writeRun (byte &&& RLE_LEN_MASK) byte2 count scanline
          decodeLoop width rest2 (consumed + 2) w.1 w.2
      else
        let w := writeRun 1 byte count scanline
        decodeLoop width rest (consumed + 1) w.1 w.2
    else ⟨PCX_ERR_NONE, consumed, count, scanline⟩

/-- The function `pcx_read_scanline`: returns the error code, the handle and
the `scanline` memory after the call.  The pre-increment
`++data->scanlines_read` is stored (modulo `65536`) before the comparison. -/
def pcx_read_scanline (data : PCXFile) (scanline : Nat → Nat) :
    Nat × PCXFile × (Nat → Nat) :=
  let data := { data with scanlines_read := (data.scanlines_read + 1) % 65536 }
  if data.scanlines_read > data.height then (PCX_ERR_USAGE, data, scanline)
  else
    let r := decodeLoop data.width (unread data.file) 0 0 scanline
    (r.err, { data with file := { data.file with pos := data.file.pos + r.consumed } },
      r.scanline)

/-! ## `pcx_get_palette_size` -/

/-- The function `pcx_get_palette_size`.  `byte` is the indeterminate initial
content of the local variable `byte`, which the unchecked `fread` leaves in
place when it transfers nothing.  Returns the `int` result and the handle. -/
def pcx_get_palette_size (file : PCXFile) (byte : Nat) : Nat × PCXFile :=
  if file.scanlines_read ≠ file.height then (PCX_ERR_USAGE, file)
  else if file.version ≠ 5 then
    let file := { file with palette_size := PCX_PALETTE_16 }
    (file.palette_size, file)
  else
    let pos := ftell file.file
    let file := { file with file := fseek_end file.file PALETTE_FLAG_OFFSET }
    let pos2 := ftell file.file
    if pos2 < pos then
      let file := { file with palette_size := PCX_PALETTE_16 }
      (file.palette_size, file)
    else
      let r := fread_byte file.file
      let byte := r.1.getD byte
      let file := { file with file := r.2 }
      if byte = PALETTE_FLAG then
        let file := { file with palette_size := PCX_PALETTE_256 }
        (file.palette_size, file)
      else
        let file := { file with palette_size := PCX_PALETTE_16 }
        (file.palette_size, file)

/-! ## `pcx_read_palette` -/

/-- Entry `i` of an array of `PCXPaletteEntry` laid over a byte memory. -/
def entryAt (buf : Nat → Nat) (i : Nat) : PCXPaletteEntry :=
  ⟨buf (3 * i), buf (3 * i + 1), buf (3 * i + 2)⟩

/-- The loop `for(i = 0; i < n; ++i) palette[i] = palette_buf[i];`. -/
def copyPalette (n : Nat) (palette_buf : Nat → Nat) (palette : Nat → PCXPaletteEntry) :
    Nat → PCXPaletteEntry :=
  (List.range n).foldl (fun p i => Function.update p i (entryAt palette_buf i)) palette

/-- The function `pcx_read_palette`.  `palette` is the caller's buffer,
`palette_buf` the indeterminate initial content of the local array
`palette_buf` (as bytes).  Returns the error code, the handle and the
caller's buffer after the call. -/
def pcx_read_palette (file : PCXFile) (palette : Nat → PCXPaletteEntry)
    (palette_buf : Nat → Nat) : Nat × PCXFile × (Nat → PCXPaletteEntry) :=
  if file.palette_size = PCX_PALETTE_16 then
    let f := fseek_set file.file offsetof_color_map
    let r := fread_block f 3 file.palette_size palette_buf
    (PCX_ERR_NONE, { file with file := r.1 }, copyPalette file.palette_size r.2 palette)
  else if file.palette_size = PCX_PALETTE_256 then
    let f := fseek_end file.file (PALETTE_FLAG_OFFSET + 1)
    let r := fread_block f 3 file.palette_size palette_buf
    (PCX_ERR_NONE, { file with file := r.1 }, copyPalette file.palette_size r.2 palette)
  else (PCX_ERR_USAGE, file, palette)

/-! ## Notions used to state the properties -/

/-- The expansion of a token sequence, in the words of the format: a byte
whose top two bits are both set is a run marker and, with the byte `v` that
follows it, stands for `b & 0x3F` copies of `v`; any other byte stands for
itself.  A run marker with no byte after it stands for nothing. -/
def expandTokens : List Nat → List Nat
  | [] => []
  | [b] => if b &&& 0xC0 = 0xC0 then [] else [b]
  | b :: v :: rest =>
    if b &&& 0xC0 = 0xC0 then List.replicate (b &&& 0x3F) v ++ expandTokens rest
    else b :: expandTokens (v :: rest)

/-- The memory `mem` with the list `xs` stored from index `c` on. -/
def overlay (mem : Nat → Nat) (c : Nat) (xs : List Nat) : Nat → Nat :=
  fun i => if c ≤ i ∧ i < c + xs.length then xs.getD (i - c) 0 else mem i

/-- What the decoding loop has done when it exits, in terms of the number `k`
of bytes it read. -/
structure LoopSpec (width : Nat) (rest : List Nat) (consumed count : Nat)
    (scanline : Nat → Nat) (r : LoopResult) (k : Nat) : Prop where
  le : k ≤ rest.length
  consumed_eq : r.consumed = consumed + k
  count_eq : r.count = count + (expandTokens (rest.take k)).length
  scanline_eq : r.scanline = overlay scanline count (expandTokens (rest.take k))
  full : r.err = PCX_ERR_NONE → width ≤ r.count
  code : r.err = PCX_ERR_NONE ∨ r.err = PCX_ERR_INVALID

/-- The handle after `n` successive `pcx_read_scanline` calls on the same
buffer, whatever the calls return. -/
def read_scanlines : Nat → PCXFile → (Nat → Nat) → PCXFile × (Nat → Nat)
  | 0, data, scanline => (data, scanline)
  | n + 1, data, scanline =>
    read_scanlines n (pcx_read_scanline data scanline).2.1 (pcx_read_scanline data scanline).2.2

/-- The handle after successive `pcx_read_palette` calls, one for each pair of
a caller's buffer and an initial content of the local array. -/
def read_palettes : List ((Nat → PCXPaletteEntry) × (Nat → Nat)) → PCXFile → PCXFile
  | [], file => file
  | c :: cs, file => read_palettes cs (pcx_read_palette file c.1 c.2).2.1

/-- A scanline buffer filled with zeros. -/
def zeroLine : Nat → Nat := fun _ => 0

/-- A palette buffer filled with black entries. -/
def zeroPalette : Nat → PCXPaletteEntry := fun _ => ⟨0, 0, 0⟩

/-- A 128 byte header with identification 10, the given version, 8 bits per
pixel, the given bounding box, a color map of zeros and one plane. -/
def headerBytes (version xmin ymin xmax ymax : Nat) : List Nat :=
  [10, version, 1, 8, xmin % 256, xmin / 256, ymin % 256, ymin / 256,
    xmax % 256, xmax / 256, ymax % 256, ymax / 256]
  ++ List.replicate 53 0 ++ [1] ++ List.replicate 62 0

/-- A struct `PCXFile` before `pcx_open_file` has filled it. -/
def blankHandle : PCXFile := ⟨⟨[], 0⟩, 0, 0, 0, 0, 0⟩

/-- A handle about to read its only scanline, 4 pixels wide, from the stream
`0xC3 0x05 0x07`. -/
def exRun : PCXFile := ⟨⟨[0xC3, 0x05, 0x07], 0⟩, 4, 1, 0, 0, 5⟩

/-- A handle about to read its only scanline, 1 pixel wide, from the stream `0x07`. -/
def exLiteral : PCXFile := ⟨⟨[0x07], 0⟩, 1, 1, 0, 0, 5⟩

/-- A handle about to read its only scanline, 2 pixels wide, from the stream
`0xC3 0x05`. -/
def exOverrun : PCXFile := ⟨⟨[0xC3, 0x05], 0⟩, 2, 1, 0, 0, 5⟩

/-- A handle of height 65535 as `pcx_open_file` leaves it: no scanline read yet. -/
def exTall : PCXFile := ⟨⟨[0x07], 0⟩, 1, 65535, 0, 0, 5⟩

/-- A handle of height 65535 on which 65535 scanline reads were made, with the
byte `0x07` unread. -/
def exTallDone : PCXFile := ⟨⟨[0x07], 0⟩, 1, 65535, 65535, 0, 5⟩

/-- A version 5 file: header for a 1 x 1 image, the pixel `0x07`, no trailer. -/
def exFile : List Nat := headerBytes 5 0 0 0 0 ++ [0x07]

/-- The handle `pcx_open_file` makes of `exFile`. -/
def exOpened : PCXFile := (pcx_open_file (some exFile) blankHandle).2

/-- The handle of `exFile` once its only scanline has been read. -/
def exScanned : PCXFile := (pcx_read_scanline exOpened zeroLine).2.1

/-- A version 5 file: header for a 2 x 2 image and two rows, each one run. -/
def exFile2 : List Nat := headerBytes 5 0 0 1 1 ++ [0xC2, 0x07, 0xC2, 0x08]

/-- The handle of `exFile2` after three `pcx_read_scanline` calls. -/
def exThreeCalls : PCXFile :=
  (read_scanlines 3 (pcx_open_file (some exFile2) blankHandle).2 zeroLine).1

/-- A version 5 file with the trailer: header for a 1 x 1 image, the pixel
`0x07`, the flag byte `0x0C` and 768 palette bytes. -/
def exFile256 : List Nat := headerBytes 5 0 0 0 0 ++ [0x07] ++ [0x0C] ++ List.replicate 768 0

/-- The handle of `exFile256` once its only scanline has been read. -/
def exScanned256 : PCXFile :=
  (pcx_read_scanline (pcx_open_file (some exFile256) blankHandle).2 zeroLine).2.1

/-- A version 3 file that ends with `0x0C` and 768 further bytes. -/
def exFile3 : List Nat := headerBytes 3 0 0 0 0 ++ [0x07] ++ [0x0C] ++ List.replicate 768 0

/-- The handle of `exFile3` once its only scanline has been read. -/
def exScanned3 : PCXFile :=
  (pcx_read_scanline (pcx_open_file (some exFile3) blankHandle).2 zeroLine).2.1

/-- A version 5 file too short for a trailer, with a `0x0C` byte after the
pixel data: header for a 1 x 1 image, the pixel `0x07`, then `0x0C`. -/
def exFileShort : List Nat := headerBytes 5 0 0 0 0 ++ [0x07, 0x0C]

/-- The handle of `exFileShort` once its only scanline has been read. -/
def exScannedShort : PCXFile :=
  (pcx_read_scanline (pcx_open_file (some exFileShort) blankHandle).2 zeroLine).2.1

/-! ## Further notions and example inputs -/

/-- The 16-bit word that `bytes` holds, low byte first, at offset `off`. -/
def word16 (bytes : List Nat) (off : Nat) : Nat :=
  bytes.getD off 0 + 256 * bytes.getD (off + 1) 0

/-- A 74 byte file with a wrong identification byte and a wrong bits per
pixel byte. -/
def exBadIdBpp : List Nat := [11, 5, 1, 4] ++ List.replicate 70 0

/-- A 74 byte file with the right identification byte and a wrong bits per
pixel byte. -/
def exBadBpp : List Nat := [10, 5, 1, 4] ++ List.replicate 61 0 ++ [1] ++ List.replicate 8 0

/-- A 74 byte file with the right identification and bits per pixel bytes and
a wrong plane count. -/
def exBadPlanes : List Nat := [10, 5, 1, 8] ++ List.replicate 61 0 ++ [3] ++ List.replicate 8 0

/-- The first 127 bytes of the header of a version 5, 1 x 1 image. -/
def exFile127 : List Nat := (headerBytes 5 0 0 0 0).take 127

/-- The first 73 bytes of the header of a version 5, 1 x 1 image. -/
def exFile73 : List Nat := (headerBytes 5 0 0 0 0).take 73

/-- The palette memory `palette` with `n` entries stored from index 0 on, entry
`i` made of the three bytes of `bytes` at offsets `off + 3 i`, `off + 3 i + 1`
and `off + 3 i + 2`. -/
def paletteAt (bytes : List Nat) (off n : Nat) (palette : Nat → PCXPaletteEntry) :
    Nat → PCXPaletteEntry :=
  fun i => if i < n then
    ⟨bytes.getD (off + 3 * i) 0, bytes.getD (off + 3 * i + 1) 0, bytes.getD (off + 3 * i + 2) 0⟩
  else palette i

/-- A handle with `palette_size = 16` on a file of 100 bytes, byte `k` being
`k`, with the cursor at offset 5. -/
def exPalette16 : PCXFile := ⟨⟨List.range 100, 5⟩, 1, 1, 1, 16, 3⟩

/-- A handle with `palette_size = 256` on a file of 770 bytes, byte `k` being
`k mod 256`, with the cursor at offset 2. -/
def exPalette256 : PCXFile := ⟨⟨(List.range 770).map (fun k => k % 256), 2⟩, 1, 1, 1, 256, 5⟩

/-- One pass through the body of the loop of `pcx_read_scanline`, from the loop
test on: either the function returns (left) or the loop goes round again
with fewer unread bytes (right). -/
def loopIter (width : Nat) (rest : List Nat) (consumed count : Nat) (scanline : Nat → Nat) :
    LoopResult ⊕ (List Nat × Nat × Nat × (Nat → Nat)) :=
  if count < width then
    match rest with
    | [] => Sum.inl ⟨PCX_ERR_INVALID, consumed, count, scanline⟩
    | byte :: rest1 =>
      if byte &&& RLE_LEN_FLAG = RLE_LEN_FLAG then
        match rest1 with
        | [] => Sum.inl ⟨PCX_ERR_INVALID, consumed + 1, count, scanline⟩
        | byte2 :: rest2 =>
          Sum.inr (rest2, consumed + 2,
            (writeRun (byte &&& RLE_LEN_MASK) byte2 count scanline).1,
            (writeRun (byte &&& RLE_LEN_MASK) byte2 count scanline).2)
      else
        Sum.inr (rest1, consumed + 1, (writeRun 1 byte count scanline).1,
          (writeRun 1 byte count scanline).2)
  else Sum.inl ⟨PCX_ERR_NONE, consumed, count, scanline⟩

/-- A stream of `m` run markers of length zero, each followed by the byte `v`. -/
def zeroRuns : Nat → Nat → List Nat
  | 0, _ => []
  | m + 1, v => 0xC0 :: v :: zeroRuns m v

/-- A handle about to read a scanline 2 pixels wide from the stream `0x07 0xC1`:
the value byte of the run is missing. -/
def exCutRun : PCXFile := ⟨⟨[0x07, 0xC1], 0⟩, 2, 1, 0, 0, 5⟩

/-- A handle about to read two scanlines 2 pixels wide from the stream
`0xC3 0x07 0xC2 0x08`: the first run has one repeat too many. -/
def exLongRun : PCXFile := ⟨⟨[0xC3, 0x07, 0xC2, 0x08], 0⟩, 2, 2, 0, 0, 5⟩

/-- A handle about to read a scanline 1 pixel wide from a stream of three run
markers of length zero. -/
def exZeroRuns : PCXFile := ⟨⟨zeroRuns 3 9, 0⟩, 1, 1, 0, 0, 5⟩

/-- The handle after successive `pcx_read_scanline` calls, one for each of the
buffers given, whatever the calls return. -/
def scan_calls : List (Nat → Nat) → PCXFile → PCXFile
  | [], data => data
  | s :: ss, data => scan_calls ss (pcx_read_scanline data s).2.1

/-- A version 5 file that ends with its header: a 1 x 1 image without pixel data. -/
def exFileNoData : List Nat := headerBytes 5 0 0 0 0

/-- The handle of `exFileNoData` after one `pcx_read_scanline` call. -/
def exFailedScan : PCXFile :=
  (pcx_read_scanline (pcx_open_file (some exFileNoData) blankHandle).2 zeroLine).2.1

/-- A token of the compressed pixel stream as an encoder writes it: a literal
byte, or a run of `n` copies of a byte. -/
inductive Token where
  | lit (v : Nat)
  | run (n v : Nat)
deriving DecidableEq

/-- The bytes a token is written as: a literal as itself, a run as the marker
`0xC0 + n` and the value. -/
def Token.bytes : Token → List Nat
  | Token.lit v => [v]
  | Token.run n v => [0xC0 + n, v]

/-- The pixels a token stands for. -/
def Token.pixels : Token → List Nat
  | Token.lit v => [v]
  | Token.run n v => List.replicate n v

/-- A token an encoder may write: a run has 1 to 63 repeats, and a byte of
`0xC0` or more is never written as a literal. -/
def Token.ok : Token → Prop
  | Token.lit v => v < 0xC0
  | Token.run n _ => 1 ≤ n ∧ n ≤ 63

/-- The bytes of an encoded row. -/
def rowBytes : List Token → List Nat
  | [] => []
  | t :: ts => t.bytes ++ rowBytes ts

/-- The pixels of an encoded row. -/
def rowPixels : List Token → List Nat
  | [] => []
  | t :: ts => t.pixels ++ rowPixels ts

/-- The bytes of the rows of an image, each row encoded on its own. -/
def imageBytes : List (List Token) → List Nat
  | [] => []
  | r :: rs => rowBytes r ++ imageBytes rs

/-- The token for a single pixel: a literal below `0xC0`, else a run of one. -/
def pixelToken (v : Nat) : Token := if v < 0xC0 then Token.lit v else Token.run 1 v

/-- A run-length encoder for one row: equal neighbours are gathered into runs
of at most 63. -/
def rleRow : List Nat → List Token
  | [] => []
  | v :: rest =>
    match rleRow rest with
    | Token.run n w :: ts =>
      if w = v ∧ n < 63 then Token.run (n + 1) v :: ts else pixelToken v :: Token.run n w :: ts
    | Token.lit w :: ts =>
      if w = v then Token.run 2 v :: ts else pixelToken v :: Token.lit w :: ts
    | [] => [pixelToken v]

/-- The 128 byte header of a `width` x `height` image with bounding box
`0, 0, width - 1, height - 1`: identification 10, version, compression 1,
8 bits per pixel, the coordinates low byte first, 4 bytes of resolution, the 48
bytes of the color map, a reserved byte, the plane count 1 and 62 more bytes. -/
def pcxHeader (version width height : Nat) (colorMap : List Nat) : List Nat :=
  [10, version, 1, 8, 0, 0, 0, 0, (width - 1) % 256, (width - 1) / 256,
    (height - 1) % 256, (height - 1) / 256, 0, 0, 0, 0]
  ++ colorMap ++ [0, 1] ++ List.replicate 62 0

/-- A PCX file: header, the encoded rows, and the bytes `trailer` after them. -/
def pcxFile (version width : Nat) (colorMap : List Nat) (rows : List (List Token))
    (trailer : List Nat) : List Nat :=
  pcxHeader version width rows.length colorMap ++ imageBytes rows ++ trailer

/-- The outcome of `n` successive `pcx_read_scanline` calls on one buffer: for
each call the code returned and the content of `scanline[0..width)` after it,
then the handle and the buffer after the last call. -/
def read_rows : Nat → PCXFile → (Nat → Nat) → List (Nat × List Nat) × PCXFile × (Nat → Nat)
  | 0, data, scanline => ([], data, scanline)
  | n + 1, data, scanline =>
    (((pcx_read_scanline data scanline).1,
        (List.range data.width).map (pcx_read_scanline data scanline).2.2) ::
      (read_rows n (pcx_read_scanline data scanline).2.1 (pcx_read_scanline data scanline).2.2).1,
     (read_rows n (pcx_read_scanline data scanline).2.1 (pcx_read_scanline data scanline).2.2).2)

/-- The decoding of the file `file` in the order of use: open, one scanline read
per row, size query, palette read.  It holds when the open succeeds with the
given width and as many rows as `pixels` has, the scanline reads all succeed
and deliver the rows of `pixels` in order, the size query returns `size`, and
the palette read succeeds and delivers `size` entries, entry `i` made of the
bytes `3 i`, `3 i + 1`, `3 i + 2` of `entries`. -/
def DecodesTo (file : List Nat) (data : PCXFile) (scanline : Nat → Nat) (byte : Nat)
    (pal : Nat → PCXPaletteEntry) (palette_buf : Nat → Nat) (width : Nat)
    (pixels : List (List Nat)) (size : Nat) (entries : List Nat) : Prop :=
  (pcx_open_file (some file) data).1 = PCX_ERR_NONE ∧
  (pcx_open_file (some file) data).2.width = width ∧
  (pcx_open_file (some file) data).2.height = pixels.length ∧
  (read_rows pixels.length (pcx_open_file (some file) data).2 scanline).1 =
    pixels.map (fun p => (PCX_ERR_NONE, p)) ∧
  (pcx_get_palette_size
    (read_rows pixels.length (pcx_open_file (some file) data).2 scanline).2.1 byte).1 = size ∧
  (pcx_read_palette (pcx_get_palette_size
    (read_rows pixels.length (pcx_open_file (some file) data).2 scanline).2.1 byte).2
      pal palette_buf).1 = PCX_ERR_NONE ∧
  ∀ i, i < size →
    (pcx_read_palette (pcx_get_palette_size
      (read_rows pixels.length (pcx_open_file (some file) data).2 scanline).2.1 byte).2
        pal palette_buf).2.2 i =
      ⟨entries.getD (3 * i) 0, entries.getD (3 * i + 1) 0, entries.getD (3 * i + 2) 0⟩

/-- The pixel rows of a 2 x 2 image with a byte above `0xC0`. -/
def exPixels : List (List Nat) := [[7, 7], [200, 8]]

/-- A color map of 48 bytes, byte `k` being `k`. -/
def exColorMap : List Nat := List.range 48

/-- A palette of 768 bytes, byte `k` being `k mod 256`. -/
def exPaletteBytes : List Nat := (List.range 768).map (fun k => k % 256)

/-! ## Theorems -/

/-! ### The decoding loop -/

theorem overlay_nil (mem : Nat → Nat) (c : Nat) : overlay mem c [] = mem := by
  funext i; simp [overlay]

theorem overlay_append (mem : Nat → Nat) (c : Nat) (xs ys : List Nat) :
    overlay (overlay mem c xs) (c + xs.length) ys = overlay mem c (xs ++ ys) := by
  funext i
  simp only [overlay, List.length_append]
  by_cases h1 : c + xs.length ≤ i
  · by_cases h2 : i < c + xs.length + ys.length
    · have e : i - c = xs.length + (i - (c + xs.length)) := by omega
      rw [if_pos ⟨h1, h2⟩, if_pos ⟨by omega, by omega⟩, e,
        List.getD_append_right _ _ _ _ (by omega)]
      simp
    · rw [if_neg (by omega), if_neg (by omega), if_neg (by omega)]
  · rw [if_neg (by omega)]
    by_cases h3 : c ≤ i
    · rw [if_pos ⟨h3, by omega⟩, if_pos ⟨h3, by omega⟩,
        List.getD_append _ _ _ _ (by omega)]
    · rw [if_neg (by omega), if_neg (by omega)]

theorem getD_replicate_lt (n v i : Nat) (h : i < n) : (List.replicate n v).getD i 0 = v := by
  simp [List.getD_eq_getElem?_getD, List.getElem?_replicate, h]

theorem writeRun_eq (rcount byte count : Nat) (scanline : Nat → Nat) :
    writeRun rcount byte count scanline =
      (count + rcount, overlay scanline count (List.replicate rcount byte)) := by
  induction rcount generalizing count scanline with
  | zero => simp [writeRun, overlay_nil]
  | succ n ih =>
    rw [writeRun, ih]
    refine Prod.ext (by simp; omega) ?_
    funext i
    simp only [overlay, List.length_replicate, Function.update]
    by_cases h : i = count
    · subst h; simp [getD_replicate_lt]
    · by_cases h2 : count + 1 ≤ i ∧ i < count + 1 + n
      · rw [if_pos h2, if_pos (by omega)]
        rw [getD_replicate_lt _ _ _ (by omega), getD_replicate_lt _ _ _ (by omega)]
      · rw [if_neg h2, if_neg (by omega)]; simp [h]


theorem decodeLoop_spec (width : Nat) : ∀ (n : Nat) (rest : List Nat), rest.length = n →
    ∀ (consumed count : Nat) (scanline : Nat → Nat),
      ∃ k, LoopSpec width rest consumed count scanline
        (decodeLoop width rest consumed count scanline) k := by
  intro n
  induction n using Nat.strong_induction_on with
  | _ n ih =>
    intro rest hn consumed count scanline
    match rest, hn with
    | [], _ =>
      refine ⟨0, ?_⟩
      unfold decodeLoop
      split
      · exact ⟨by simp, rfl, by simp [expandTokens], by simp [expandTokens, overlay_nil],
          by simp [PCX_ERR_INVALID, PCX_ERR_NONE], Or.inr rfl⟩
      · exact ⟨by simp, rfl, by simp [expandTokens], by simp [expandTokens, overlay_nil],
          fun _ => by simpa using ‹¬ count < width›, Or.inl rfl⟩
    | b :: rest, hn =>
      unfold decodeLoop
      by_cases hc : count < width
      · rw [if_pos hc]
        by_cases hb : b &&& RLE_LEN_FLAG = RLE_LEN_FLAG
        · rw [if_pos hb]
          have hb2 : b &&& 0xC0 = 0xC0 := hb
          match rest, hn with
          | [], _ =>
            exact ⟨1, by simp, rfl, by simp [expandTokens, hb2],
              by simp [expandTokens, hb2, overlay_nil],
              by simp [PCX_ERR_INVALID, PCX_ERR_NONE], Or.inr rfl⟩
          | v :: rest2, hn =>
            simp only [writeRun_eq]
            obtain ⟨k, hk⟩ := ih rest2.length (by simp at hn; omega) rest2 rfl (consumed + 2)
              (count + (b &&& RLE_LEN_MASK))
              (overlay scanline count (List.replicate (b &&& RLE_LEN_MASK) v))
            refine ⟨k + 2, ?_⟩
            have ex : expandTokens ((b :: v :: rest2).take (k + 2)) =
                List.replicate (b &&& RLE_LEN_MASK) v ++ expandTokens (rest2.take k) := by
              simp [expandTokens, hb2, RLE_LEN_MASK]
            refine ⟨by simpa using hk.le, by rw [hk.consumed_eq]; omega, ?_, ?_, hk.full,
              hk.code⟩
            · rw [hk.count_eq, ex]; simp; omega
            · rw [hk.scanline_eq, ex, ← overlay_append]; simp
        · rw [if_neg hb]
          have hb2 : ¬ b &&& 0xC0 = 0xC0 := hb
          simp only [writeRun_eq]
          obtain ⟨k, hk⟩ := ih rest.length (by simp at hn; omega) rest rfl (consumed + 1)
            (count + 1) (overlay scanline count (List.replicate 1 b))
          refine ⟨k + 1, ?_⟩
          have ex : expandTokens ((b :: rest).take (k + 1)) = [b] ++ expandTokens (rest.take k) := by
            rw [List.take_succ_cons]
            cases h : rest.take k with
            | nil => simp [expandTokens, hb2]
            | cons v tl => simp [expandTokens, hb2]
          refine ⟨by simpa using hk.le, by rw [hk.consumed_eq]; omega, ?_, ?_, hk.full,
            hk.code⟩
          · rw [hk.count_eq, ex]; simp; omega
          · rw [hk.scanline_eq, ex, ← overlay_append]; simp
      · rw [if_neg hc]
        exact ⟨0, by simp, rfl, by simp [expandTokens], by simp [expandTokens, overlay_nil],
          fun _ => Nat.le_of_not_lt hc, Or.inl rfl⟩


theorem decodeLoop_exists (width : Nat) (rest : List Nat) (consumed count : Nat)
    (scanline : Nat → Nat) :
    ∃ k, LoopSpec width rest consumed count scanline
      (decodeLoop width rest consumed count scanline) k :=
  decodeLoop_spec width rest.length rest rfl consumed count scanline

theorem overlay_below (mem : Nat → Nat) (c : Nat) (xs : List Nat) (i : Nat) (h : i < c) :
    overlay mem c xs i = mem i := by
  simp only [overlay]; rw [if_neg (by omega)]

theorem map_overlay_range (mem : Nat → Nat) (xs : List Nat) (width : Nat)
    (h : width ≤ xs.length) :
    (List.range width).map (overlay mem 0 xs) = xs.take width := by
  apply List.ext_getElem
  · simp [h]
  · intro i h1 h2
    simp only [List.length_map, List.length_range] at h1
    simp only [List.getElem_map, List.getElem_range, List.getElem_take, overlay]
    rw [if_pos ⟨by omega, by omega⟩]
    simp [List.getD_eq_getElem?_getD, List.getElem?_eq_getElem (show i < xs.length by omega)]

theorem pcx_read_scanline_run (data : PCXFile) (scanline : Nat → Nat)
    (h : (data.scanlines_read + 1) % 65536 ≤ data.height) :
    pcx_read_scanline data scanline =
      ((decodeLoop data.width (unread data.file) 0 0 scanline).err,
       { data with
          scanlines_read := (data.scanlines_read + 1) % 65536
          file := { data.file with pos := data.file.pos +
            (decodeLoop data.width (unread data.file) 0 0 scanline).consumed } },
       (decodeLoop data.width (unread data.file) 0 0 scanline).scanline) := by
  simp only [pcx_read_scanline]
  rw [if_neg (by simpa using h)]

theorem pcx_read_scanline_usage (data : PCXFile) (scanline : Nat → Nat)
    (h : data.height < (data.scanlines_read + 1) % 65536) :
    pcx_read_scanline data scanline =
      (PCX_ERR_USAGE, { data with scanlines_read := (data.scanlines_read + 1) % 65536 },
        scanline) := by
  simp only [pcx_read_scanline]
  rw [if_pos (by simpa using h)]

theorem counter_step_le (sr height : Nat) (h : sr < height) : (sr + 1) % 65536 ≤ height :=
  le_trans (Nat.mod_le _ _) h

/-- C1: for a handle with `scanlines_read < height`, a `pcx_read_scanline`
call that returns `PCX_ERR_NONE` leaves in `scanline[0..width)` the first
`width` bytes of the expansion of the bytes it read from the cursor; a stream
that starts with `0xC3, 0x05` gives `5, 5, 5` as first three bytes when
`width >= 3`, and a stream that starts with `0x07` gives the pixel `7`. -/
theorem read_scanline_is_expansion (data : PCXFile) (scanline : Nat → Nat)
    (h : data.scanlines_read < data.height) :
    ((pcx_read_scanline data scanline).1 = PCX_ERR_NONE →
      (List.range data.width).map (pcx_read_scanline data scanline).2.2 =
        (expandTokens ((unread data.file).take
          ((pcx_read_scanline data scanline).2.1.file.pos - data.file.pos).toNat)).take
            data.width) ∧
    (∀ tl, unread data.file = 0xC3 :: 0x05 :: tl → 3 ≤ data.width →
      (pcx_read_scanline data scanline).2.2 0 = 5 ∧
      (pcx_read_scanline data scanline).2.2 1 = 5 ∧
      (pcx_read_scanline data scanline).2.2 2 = 5) ∧
    (∀ tl, unread data.file = 0x07 :: tl → 1 ≤ data.width →
      (pcx_read_scanline data scanline).2.2 0 = 7) := by
  rw [pcx_read_scanline_run data scanline (counter_step_le _ _ h)]
  refine ⟨?_, ?_, ?_⟩
  · intro hok
    obtain ⟨k, hk⟩ := decodeLoop_exists data.width (unread data.file) 0 0 scanline
    simp only at hok ⊢
    have hlen := hk.full hok
    rw [hk.count_eq, Nat.zero_add] at hlen
    rw [hk.scanline_eq, hk.consumed_eq]
    simp only [Nat.zero_add, add_sub_cancel_left, Int.toNat_ofNat]
    exact map_overlay_range _ _ _ hlen
  · intro tl htl hw
    simp only [htl]
    unfold decodeLoop
    rw [if_pos (by omega), if_pos (by decide)]
    simp only [writeRun_eq]
    obtain ⟨k, hk⟩ := decodeLoop_exists data.width tl (0 + 2) (0 + (0xC3 &&& RLE_LEN_MASK))
      (overlay scanline 0 (List.replicate (0xC3 &&& RLE_LEN_MASK) 0x05))
    rw [hk.scanline_eq]
    have e : (0xC3 &&& RLE_LEN_MASK) = 3 := by decide
    simp only [e]
    refine ⟨?_, ?_, ?_⟩ <;>
      (rw [overlay_below _ _ _ _ (by omega)]; simp [overlay])
  · intro tl htl hw
    simp only [htl]
    unfold decodeLoop
    rw [if_pos (by omega), if_neg (by decide)]
    simp only [writeRun_eq]
    obtain ⟨k, hk⟩ := decodeLoop_exists data.width tl (0 + 1) (0 + 1)
      (overlay scanline 0 (List.replicate 1 0x07))
    rw [hk.scanline_eq, overlay_below _ _ _ _ (by omega)]
    simp [overlay]

/-- The expansion property at the handles `exRun` (stream `0xC3 0x05 0x07`,
width 4) and `exLiteral` (stream `0x07`, width 1). -/
theorem read_scanline_is_expansion_witness :
    exRun.scanlines_read < exRun.height ∧
    (pcx_read_scanline exRun zeroLine).1 = PCX_ERR_NONE ∧
    (List.range exRun.width).map (pcx_read_scanline exRun zeroLine).2.2 = [5, 5, 5, 7] ∧
    unread exRun.file = 0xC3 :: 0x05 :: [0x07] ∧ 3 ≤ exRun.width ∧
    ((pcx_read_scanline exRun zeroLine).2.2 0 = 5 ∧
      (pcx_read_scanline exRun zeroLine).2.2 1 = 5 ∧
      (pcx_read_scanline exRun zeroLine).2.2 2 = 5) ∧
    exLiteral.scanlines_read < exLiteral.height ∧
    unread exLiteral.file = 0x07 :: [] ∧ 1 ≤ exLiteral.width ∧
    (pcx_read_scanline exLiteral zeroLine).2.2 0 = 7 :=
  ⟨by decide, by decide,
    ((read_scanline_is_expansion exRun zeroLine (by decide)).1 (by decide)).trans
      (by decide),
    by decide, by decide,
    (read_scanline_is_expansion exRun zeroLine (by decide)).2.1 [0x07] (by decide)
      (by decide),
    by decide, by decide, by decide,
    (read_scanline_is_expansion exLiteral zeroLine (by decide)).2.2 [] (by decide)
      (by decide)⟩

/-! ### Writes beyond `width` -/

/-- C2: on the handle of width 2 reading the stream `0xC3 0x05`, the call
returns `PCX_ERR_NONE`, yet the inner loop stores all three repeats: the
element `scanline[2]`, at index `width`, is overwritten with 5. -/
theorem read_scanline_overruns_width :
    exOverrun.width = 2 ∧
    (pcx_read_scanline exOverrun zeroLine).1 = PCX_ERR_NONE ∧
    zeroLine 2 = 0 ∧
    (pcx_read_scanline exOverrun zeroLine).2.2 2 = 5 :=
  ⟨by decide, by decide, by decide, by decide⟩

/-! ### The scanline counter -/

theorem read_scanline_fields (data : PCXFile) (scanline : Nat → Nat) :
    (pcx_read_scanline data scanline).2.1.scanlines_read = (data.scanlines_read + 1) % 65536 ∧
    (pcx_read_scanline data scanline).2.1.height = data.height ∧
    (pcx_read_scanline data scanline).2.1.width = data.width ∧
    (pcx_read_scanline data scanline).2.1.version = data.version ∧
    (pcx_read_scanline data scanline).2.1.palette_size = data.palette_size := by
  simp only [pcx_read_scanline]
  split <;> simp

theorem read_scanlines_counter (n : Nat) : ∀ (data : PCXFile) (scanline : Nat → Nat),
    data.scanlines_read < 65536 →
    (read_scanlines n data scanline).1.scanlines_read = (data.scanlines_read + n) % 65536 ∧
    (read_scanlines n data scanline).1.height = data.height ∧
    (read_scanlines n data scanline).1.width = data.width := by
  induction n with
  | zero =>
    intro data scanline h
    simp [read_scanlines, Nat.mod_eq_of_lt h]
  | succ n ih =>
    intro data scanline h
    obtain ⟨h1, h2, h3, -, -⟩ := read_scanline_fields data scanline
    obtain ⟨i1, i2, i3⟩ := ih (pcx_read_scanline data scanline).2.1
      (pcx_read_scanline data scanline).2.2 (by rw [h1]; exact Nat.mod_lt _ (by decide))
    rw [read_scanlines, i1, i2, i3, h1, h2, h3]
    refine ⟨?_, rfl, rfl⟩
    omega

theorem read_scanline_code (data : PCXFile) (scanline : Nat → Nat)
    (h : (data.scanlines_read + 1) % 65536 ≤ data.height) :
    (pcx_read_scanline data scanline).1 = PCX_ERR_NONE ∨
      (pcx_read_scanline data scanline).1 = PCX_ERR_INVALID := by
  rw [pcx_read_scanline_run data scanline h]
  obtain ⟨k, hk⟩ := decodeLoop_exists data.width (unread data.file) 0 0 scanline
  exact hk.code

/-- C3: on a handle of height 65535 the counter is 65535 after 65535 calls, and
the pre-increment of the next call wraps it to 0: that call, made after
`height` calls, is not rejected with `PCX_ERR_USAGE`.  With the byte `0x07`
unread it returns `PCX_ERR_NONE`, moves the cursor and stores the pixel. -/
theorem read_scanline_counter_wraps :
    exTall.height = 65535 ∧
    (read_scanlines 65535 exTall zeroLine).1.scanlines_read = 65535 ∧
    (pcx_read_scanline (read_scanlines 65535 exTall zeroLine).1
      (read_scanlines 65535 exTall zeroLine).2).1 ≠ PCX_ERR_USAGE ∧
    exTallDone.scanlines_read = exTallDone.height ∧
    (pcx_read_scanline exTallDone zeroLine).1 = PCX_ERR_NONE ∧
    (pcx_read_scanline exTallDone zeroLine).2.1.scanlines_read = 0 ∧
    exTallDone.file.pos = 0 ∧
    (pcx_read_scanline exTallDone zeroLine).2.1.file.pos = 1 ∧
    zeroLine 0 = 0 ∧
    (pcx_read_scanline exTallDone zeroLine).2.2 0 = 7 := by
  obtain ⟨h1, h2, -⟩ := read_scanlines_counter 65535 exTall zeroLine (by decide)
  have h3 : (read_scanlines 65535 exTall zeroLine).1.scanlines_read = 65535 := by
    rw [h1]; decide
  refine ⟨by decide, h3, ?_, by decide, by decide, by decide, by decide, by decide,
    by decide, by decide⟩
  have hle : ((read_scanlines 65535 exTall zeroLine).1.scanlines_read + 1) % 65536 ≤
      (read_scanlines 65535 exTall zeroLine).1.height := by
    rw [h3, h2]; decide
  rcases read_scanline_code _ (read_scanlines 65535 exTall zeroLine).2 hle with h | h <;>
    rw [h] <;> decide

/-! ### `pcx_get_palette_size` and `pcx_read_palette`: first facts -/

theorem get_palette_size_usage (file : PCXFile) (byte : Nat)
    (h : file.scanlines_read ≠ file.height) :
    pcx_get_palette_size file byte = (PCX_ERR_USAGE, file) := by
  simp only [pcx_get_palette_size]
  rw [if_pos h]

theorem get_palette_size_resolved (file : PCXFile) (byte : Nat)
    (h : file.scanlines_read = file.height) :
    ((pcx_get_palette_size file byte).1 = 16 ∨ (pcx_get_palette_size file byte).1 = 256) ∧
    (pcx_get_palette_size file byte).2.palette_size = (pcx_get_palette_size file byte).1 ∧
    (pcx_get_palette_size file byte).2.scanlines_read = file.scanlines_read ∧
    (pcx_get_palette_size file byte).2.height = file.height ∧
    (pcx_get_palette_size file byte).2.width = file.width ∧
    (pcx_get_palette_size file byte).2.version = file.version := by
  simp only [pcx_get_palette_size]
  rw [if_neg (by simpa using h)]
  split
  · simp [PCX_PALETTE_16]
  · split
    · simp [PCX_PALETTE_16]
    · split <;> simp [PCX_PALETTE_16, PCX_PALETTE_256]

theorem get_palette_size_usage_iff (file : PCXFile) (byte : Nat) :
    (pcx_get_palette_size file byte).1 = PCX_ERR_USAGE ↔
      file.scanlines_read ≠ file.height := by
  constructor
  · intro h heq
    rcases (get_palette_size_resolved file byte heq).1 with h1 | h1 <;>
      (rw [h1] at h; exact absurd h (by decide))
  · intro h
    rw [get_palette_size_usage file byte h]

theorem read_palette_fields (file : PCXFile) (palette : Nat → PCXPaletteEntry)
    (palette_buf : Nat → Nat) :
    (pcx_read_palette file palette palette_buf).2.1.palette_size = file.palette_size ∧
    (pcx_read_palette file palette palette_buf).2.1.scanlines_read = file.scanlines_read ∧
    (pcx_read_palette file palette palette_buf).2.1.height = file.height ∧
    (pcx_read_palette file palette palette_buf).2.1.width = file.width ∧
    (pcx_read_palette file palette palette_buf).2.1.version = file.version := by
  simp only [pcx_read_palette]
  split
  · simp
  · split <;> simp

theorem read_palette_usage (file : PCXFile) (palette : Nat → PCXPaletteEntry)
    (palette_buf : Nat → Nat) (h16 : file.palette_size ≠ 16) (h256 : file.palette_size ≠ 256) :
    pcx_read_palette file palette palette_buf = (PCX_ERR_USAGE, file, palette) := by
  simp only [pcx_read_palette, PCX_PALETTE_16, PCX_PALETTE_256]
  rw [if_neg h16, if_neg h256]

theorem read_palette_code (file : PCXFile) (palette : Nat → PCXPaletteEntry)
    (palette_buf : Nat → Nat) (h : file.palette_size = 16 ∨ file.palette_size = 256) :
    (pcx_read_palette file palette palette_buf).1 = PCX_ERR_NONE := by
  simp only [pcx_read_palette, PCX_PALETTE_16, PCX_PALETTE_256]
  rcases h with h | h
  · rw [if_pos h]
  · rw [if_neg (by rw [h]; decide), if_pos h]

theorem read_scanline_usage_iff (data : PCXFile) (scanline : Nat → Nat) :
    (pcx_read_scanline data scanline).1 = PCX_ERR_USAGE ↔
      data.height < (data.scanlines_read + 1) % 65536 := by
  constructor
  · intro h
    by_contra hc
    rcases read_scanline_code data scanline (Nat.le_of_not_lt hc) with h1 | h1 <;>
      (rw [h1] at h; exact absurd h (by decide))
  · intro h
    rw [pcx_read_scanline_usage data scanline h]

/-! ### Usage errors and the state of the handle -/

set_option maxRecDepth 100000 in
/-- C4, as stated, fails: on the handle of a 1 x 1 image whose scanline has been
read, one more `pcx_read_scanline` returns `PCX_ERR_USAGE` and leaves
`scanlines_read` at 2 instead of 1, so `pcx_get_palette_size`, which would have
resolved the size before the rejected call, now returns `PCX_ERR_USAGE`. -/
theorem usage_error_changes_counter :
    exScanned.scanlines_read = exScanned.height ∧
    (pcx_get_palette_size exScanned 0).1 = 16 ∧
    (pcx_read_scanline exScanned zeroLine).1 = PCX_ERR_USAGE ∧
    (pcx_read_scanline exScanned zeroLine).2.1 ≠ exScanned ∧
    (pcx_read_scanline exScanned zeroLine).2.1.scanlines_read = 2 ∧
    (pcx_read_scanline exScanned zeroLine).2.1.height = 1 ∧
    (pcx_get_palette_size (pcx_read_scanline exScanned zeroLine).2.1 0).1 = PCX_ERR_USAGE := by
  refine ⟨by decide, by decide, by decide, by decide, by decide, by decide, by decide⟩

/-- C4, amended: a `PCX_ERR_USAGE` from `pcx_get_palette_size` or
`pcx_read_palette` leaves the whole handle (and the palette buffer) as it was;
a `PCX_ERR_USAGE` from `pcx_read_scanline` leaves width, height, version,
palette size, the stream and the scanline buffer as they were and stores the
incremented counter, which then exceeds `height`, so that
`pcx_get_palette_size` on that handle returns `PCX_ERR_USAGE`. -/
theorem usage_error_state (data : PCXFile) (scanline : Nat → Nat)
    (palette : Nat → PCXPaletteEntry) (palette_buf : Nat → Nat) (byte : Nat) :
    ((pcx_get_palette_size data byte).1 = PCX_ERR_USAGE →
      (pcx_get_palette_size data byte).2 = data) ∧
    ((pcx_read_palette data palette palette_buf).1 = PCX_ERR_USAGE →
      (pcx_read_palette data palette palette_buf).2.1 = data ∧
      (pcx_read_palette data palette palette_buf).2.2 = palette) ∧
    ((pcx_read_scanline data scanline).1 = PCX_ERR_USAGE →
      (pcx_read_scanline data scanline).2.1 =
        { data with scanlines_read := (data.scanlines_read + 1) % 65536 } ∧
      (pcx_read_scanline data scanline).2.2 = scanline ∧
      data.height < (pcx_read_scanline data scanline).2.1.scanlines_read ∧
      (pcx_get_palette_size (pcx_read_scanline data scanline).2.1 byte).1 = PCX_ERR_USAGE) := by
  refine ⟨?_, ?_, ?_⟩
  · intro h
    rw [get_palette_size_usage data byte ((get_palette_size_usage_iff data byte).1 h)]
  · intro h
    by_cases h16 : data.palette_size = 16
    · rw [read_palette_code data palette palette_buf (Or.inl h16)] at h
      exact absurd h (by decide)
    · by_cases h256 : data.palette_size = 256
      · rw [read_palette_code data palette palette_buf (Or.inr h256)] at h
        exact absurd h (by decide)
      · rw [read_palette_usage data palette palette_buf h16 h256]
        exact ⟨rfl, rfl⟩
  · intro h
    have hgt := (read_scanline_usage_iff data scanline).1 h
    rw [pcx_read_scanline_usage data scanline hgt]
    refine ⟨rfl, rfl, hgt, ?_⟩
    rw [get_palette_size_usage]
    exact fun heq => absurd heq (Nat.ne_of_gt hgt)

set_option maxRecDepth 100000 in
/-- The three usage errors on the handle of `exFile`: size query and palette read
before the scanline is read, and a second scanline read. -/
theorem usage_error_state_witness :
    (pcx_get_palette_size exOpened 0).1 = PCX_ERR_USAGE ∧
    (pcx_get_palette_size exOpened 0).2 = exOpened ∧
    (pcx_read_palette exOpened zeroPalette zeroLine).1 = PCX_ERR_USAGE ∧
    ((pcx_read_palette exOpened zeroPalette zeroLine).2.1 = exOpened ∧
      (pcx_read_palette exOpened zeroPalette zeroLine).2.2 = zeroPalette) ∧
    (pcx_read_scanline exScanned zeroLine).1 = PCX_ERR_USAGE ∧
    ((pcx_read_scanline exScanned zeroLine).2.1 =
        { exScanned with scanlines_read := (exScanned.scanlines_read + 1) % 65536 } ∧
      (pcx_read_scanline exScanned zeroLine).2.2 = zeroLine ∧
      exScanned.height < (pcx_read_scanline exScanned zeroLine).2.1.scanlines_read ∧
      (pcx_get_palette_size (pcx_read_scanline exScanned zeroLine).2.1 0).1 = PCX_ERR_USAGE) :=
  ⟨by decide,
    (usage_error_state exOpened zeroLine zeroPalette zeroLine 0).1 (by decide),
    by decide,
    (usage_error_state exOpened zeroLine zeroPalette zeroLine 0).2.1 (by decide),
    by decide,
    (usage_error_state exScanned zeroLine zeroPalette zeroLine 0).2.2 (by decide)⟩

/-! ### The counter and `height` -/

set_option maxRecDepth 100000 in
/-- C5, as stated, fails: after three `pcx_read_scanline` calls on the handle of
a 2 x 2 image, the third of them rejected, `scanlines_read` is 3 and `height`
is 2. -/
theorem counter_exceeds_height :
    (pcx_open_file (some exFile2) blankHandle).1 = PCX_ERR_NONE ∧
    exThreeCalls.height = 2 ∧
    exThreeCalls.scanlines_read = 3 ∧
    ¬ exThreeCalls.scanlines_read ≤ exThreeCalls.height := by
  refine ⟨by decide, by decide, by decide, by decide⟩

theorem open_file_resets (contents : Option (List Nat)) (data : PCXFile) :
    (pcx_open_file contents data).2.scanlines_read = 0 ∧
    (pcx_open_file contents data).2.palette_size = 0 := by
  simp only [pcx_open_file]
  cases contents with
  | none => simp
  | some bytes =>
    simp only
    split
    · simp
    · split
      · simp
      · split
        · simp
        · split <;> simp

theorem get_palette_size_counter (file : PCXFile) (byte : Nat) :
    (pcx_get_palette_size file byte).2.scanlines_read = file.scanlines_read ∧
    (pcx_get_palette_size file byte).2.height = file.height := by
  by_cases h : file.scanlines_read = file.height
  · obtain ⟨-, -, h1, h2, -, -⟩ := get_palette_size_resolved file byte h
    exact ⟨h1, h2⟩
  · rw [get_palette_size_usage file byte h]
    exact ⟨rfl, rfl⟩

/-- C5, amended: `scanlines_read <= height` holds after `pcx_open_file`, is
preserved by `pcx_get_palette_size` and by `pcx_read_palette`, and holds after
every `pcx_read_scanline` call that does not return `PCX_ERR_USAGE`; after a
call that returns `PCX_ERR_USAGE` the stored counter exceeds `height`. -/
theorem counter_le_height (contents : Option (List Nat)) (data : PCXFile)
    (scanline : Nat → Nat) (palette : Nat → PCXPaletteEntry) (palette_buf : Nat → Nat)
    (byte : Nat) :
    (pcx_open_file contents data).2.scanlines_read ≤ (pcx_open_file contents data).2.height ∧
    (data.scanlines_read ≤ data.height →
      (pcx_get_palette_size data byte).2.scanlines_read ≤
        (pcx_get_palette_size data byte).2.height) ∧
    (data.scanlines_read ≤ data.height →
      (pcx_read_palette data palette palette_buf).2.1.scanlines_read ≤
        (pcx_read_palette data palette palette_buf).2.1.height) ∧
    ((pcx_read_scanline data scanline).1 ≠ PCX_ERR_USAGE →
      (pcx_read_scanline data scanline).2.1.scanlines_read ≤
        (pcx_read_scanline data scanline).2.1.height) ∧
    ((pcx_read_scanline data scanline).1 = PCX_ERR_USAGE →
      (pcx_read_scanline data scanline).2.1.height <
        (pcx_read_scanline data scanline).2.1.scanlines_read) := by
  obtain ⟨s1, s2, -, -, -⟩ := read_scanline_fields data scanline
  obtain ⟨-, p1, p2, -, -⟩ := read_palette_fields data palette palette_buf
  obtain ⟨g1, g2⟩ := get_palette_size_counter data byte
  refine ⟨?_, ?_, ?_, ?_, ?_⟩
  · rw [(open_file_resets contents data).1]; exact Nat.zero_le _
  · intro h; rw [g1, g2]; exact h
  · intro h; rw [p1, p2]; exact h
  · intro h
    rw [s1, s2]
    exact Nat.le_of_not_lt (fun hc => h ((read_scanline_usage_iff data scanline).2 hc))
  · intro h
    rw [s1, s2]
    exact (read_scanline_usage_iff data scanline).1 h

set_option maxRecDepth 100000 in
/-- The counter along the life of the handle of `exFile`. -/
theorem counter_le_height_witness :
    exScanned.scanlines_read ≤ exScanned.height ∧
    (pcx_get_palette_size exScanned 0).2.scanlines_read ≤
      (pcx_get_palette_size exScanned 0).2.height ∧
    (pcx_read_palette exScanned zeroPalette zeroLine).2.1.scanlines_read ≤
      (pcx_read_palette exScanned zeroPalette zeroLine).2.1.height ∧
    (pcx_read_scanline exOpened zeroLine).1 ≠ PCX_ERR_USAGE ∧
    (pcx_read_scanline exOpened zeroLine).2.1.scanlines_read ≤
      (pcx_read_scanline exOpened zeroLine).2.1.height ∧
    (pcx_read_scanline exScanned zeroLine).1 = PCX_ERR_USAGE ∧
    (pcx_read_scanline exScanned zeroLine).2.1.height <
      (pcx_read_scanline exScanned zeroLine).2.1.scanlines_read :=
  ⟨by decide,
    (counter_le_height none exScanned zeroLine zeroPalette zeroLine 0).2.1 (by decide),
    (counter_le_height none exScanned zeroLine zeroPalette zeroLine 0).2.2.1 (by decide),
    by decide,
    (counter_le_height none exOpened zeroLine zeroPalette zeroLine 0).2.2.2.1 (by decide),
    by decide,
    (counter_le_height none exScanned zeroLine zeroPalette zeroLine 0).2.2.2.2 (by decide)⟩

/-! ### `pcx_get_palette_size` -/

/-- C6: with `scanlines_read != height`, `pcx_get_palette_size` returns
`PCX_ERR_USAGE`, which is 4 and neither 16 nor 256, and leaves the handle
(stream and `palette_size` included) as it was; with `scanlines_read == height`
it returns 16 or 256 and stores the value returned in `palette_size`. -/
theorem get_palette_size_precondition (file : PCXFile) (byte : Nat) :
    (file.scanlines_read ≠ file.height →
      (pcx_get_palette_size file byte).1 = PCX_ERR_USAGE ∧
      PCX_ERR_USAGE = 4 ∧ PCX_ERR_USAGE ≠ 16 ∧ PCX_ERR_USAGE ≠ 256 ∧
      (pcx_get_palette_size file byte).2.file = file.file ∧
      (pcx_get_palette_size file byte).2.palette_size = file.palette_size ∧
      (pcx_get_palette_size file byte).2 = file) ∧
    (file.scanlines_read = file.height →
      ((pcx_get_palette_size file byte).1 = 16 ∨ (pcx_get_palette_size file byte).1 = 256) ∧
      (pcx_get_palette_size file byte).2.palette_size = (pcx_get_palette_size file byte).1) := by
  constructor
  · intro h
    rw [get_palette_size_usage file byte h]
    exact ⟨rfl, rfl, by decide, by decide, rfl, rfl, rfl⟩
  · intro h
    exact ⟨(get_palette_size_resolved file byte h).1, (get_palette_size_resolved file byte h).2.1⟩

set_option maxRecDepth 100000 in
/-- The size query before the scanline of `exFile` is read, and after the
scanline of `exFile256` is read. -/
theorem get_palette_size_precondition_witness :
    exOpened.scanlines_read ≠ exOpened.height ∧
    ((pcx_get_palette_size exOpened 0).1 = PCX_ERR_USAGE ∧
      PCX_ERR_USAGE = 4 ∧ PCX_ERR_USAGE ≠ 16 ∧ PCX_ERR_USAGE ≠ 256 ∧
      (pcx_get_palette_size exOpened 0).2.file = exOpened.file ∧
      (pcx_get_palette_size exOpened 0).2.palette_size = exOpened.palette_size ∧
      (pcx_get_palette_size exOpened 0).2 = exOpened) ∧
    exScanned256.scanlines_read = exScanned256.height ∧
    (((pcx_get_palette_size exScanned256 0).1 = 16 ∨
        (pcx_get_palette_size exScanned256 0).1 = 256) ∧
      (pcx_get_palette_size exScanned256 0).2.palette_size =
        (pcx_get_palette_size exScanned256 0).1) ∧
    (pcx_get_palette_size exScanned256 0).1 = 256 :=
  ⟨by decide, (get_palette_size_precondition exOpened 0).1 (by decide),
    by decide, (get_palette_size_precondition exScanned256 0).2 (by decide), by decide⟩

theorem get_palette_size_legacy (file : PCXFile) (byte : Nat) (hv : file.version ≠ 5)
    (hs : file.scanlines_read = file.height) :
    pcx_get_palette_size file byte = (16, { file with palette_size := 16 }) := by
  simp only [pcx_get_palette_size, PCX_PALETTE_16]
  rw [if_neg (by simpa using hs), if_pos hv]

/-- C7: with `version != 5` and `scanlines_read == height`,
`pcx_get_palette_size` returns 16 whatever the stream holds and wherever its
cursor is, and leaves the stream (bytes and cursor) as it was. -/
theorem get_palette_size_not_version5 (file : PCXFile) (byte : Nat) (hv : file.version ≠ 5)
    (hs : file.scanlines_read = file.height) :
    (pcx_get_palette_size file byte).1 = 16 ∧
    (pcx_get_palette_size file byte).2.file = file.file ∧
    (pcx_get_palette_size file byte).2.file.pos = file.file.pos ∧
    (pcx_get_palette_size file byte).2.palette_size = 16 := by
  rw [get_palette_size_legacy file byte hv hs]
  exact ⟨rfl, rfl, rfl, rfl⟩

set_option maxRecDepth 100000 in
/-- The size query on a version 3 file that ends with `0x0C` and 768 bytes. -/
theorem get_palette_size_not_version5_witness :
    exScanned3.version ≠ 5 ∧ exScanned3.scanlines_read = exScanned3.height ∧
    exScanned3.file.bytes.drop 129 = 0x0C :: List.replicate 768 0 ∧
    ((pcx_get_palette_size exScanned3 0).1 = 16 ∧
      (pcx_get_palette_size exScanned3 0).2.file = exScanned3.file ∧
      (pcx_get_palette_size exScanned3 0).2.file.pos = exScanned3.file.pos ∧
      (pcx_get_palette_size exScanned3 0).2.palette_size = 16) :=
  ⟨by decide, by decide, by decide,
    get_palette_size_not_version5 exScanned3 0 (by decide) (by decide)⟩

theorem unread_at (bytes : List Nat) (p : Int) (h0 : 0 ≤ p) (h1 : p < bytes.length) :
    unread ⟨bytes, p⟩ = bytes.getD p.toNat 0 :: bytes.drop (p.toNat + 1) := by
  have hlt : p.toNat < bytes.length := by omega
  simp only [unread]
  rw [if_neg (by omega), List.drop_eq_getElem_cons hlt]
  simp [List.getD_eq_getElem?_getD, List.getElem?_eq_getElem hlt]

theorem fseek_end_inside (f : FILE) (offset : Int)
    (h : 0 ≤ (f.bytes.length : Int) + offset) :
    fseek_end f offset = { f with pos := (f.bytes.length : Int) + offset } := by
  simp only [fseek_end]
  rw [if_neg (by omega)]

theorem fseek_end_before (f : FILE) (offset : Int)
    (h : (f.bytes.length : Int) + offset < 0) : fseek_end f offset = f := by
  simp only [fseek_end]
  rw [if_pos h]

theorem get_palette_size_probe (file : PCXFile) (byte : Nat) (hv : file.version = 5)
    (hs : file.scanlines_read = file.height) (hlen : 769 ≤ file.file.bytes.length) :
    (pcx_get_palette_size file byte).1 =
      if (file.file.bytes.length : Int) - 769 < file.file.pos then 16
      else if file.file.bytes.getD (file.file.bytes.length - 769) 0 = 0x0C then 256
      else 16 := by
  have hseek := fseek_end_inside file.file PALETTE_FLAG_OFFSET
    (by simp only [PALETTE_FLAG_OFFSET]; omega)
  simp only [pcx_get_palette_size, PCX_PALETTE_16, PCX_PALETTE_256, PALETTE_FLAG, ftell,
    fread_byte, hseek]
  simp only [PALETTE_FLAG_OFFSET]
  rw [if_neg (by simpa using hs), if_neg (by simpa using hv)]
  have e : (file.file.bytes.length : Int) + (-3 * 256 - 1) = (file.file.bytes.length : Int) - 769 := by
    omega
  rw [e]
  by_cases hlt : (file.file.bytes.length : Int) - 769 < file.file.pos
  · rw [if_pos hlt, if_pos hlt]
  · rw [if_neg hlt, if_neg hlt]
    have h0 : (0 : Int) ≤ (file.file.bytes.length : Int) - 769 := by omega
    have h1 : (file.file.bytes.length : Int) - 769 < (file.file.bytes.length : Int) := by omega
    have hn : ((file.file.bytes.length : Int) - 769).toNat = file.file.bytes.length - 769 := by
      omega
    rw [unread_at _ _ h0 h1, hn]
    simp only [Option.getD_some]
    split <;> rfl

set_option maxRecDepth 100000 in
/-- C8: on the handle of the 130 byte version 5 file `exFileShort`, with all
scanlines read and the cursor at 129, `L - 769 < P` holds, yet
`pcx_get_palette_size` does not return 16: the seek to `L - 769` fails and
leaves the cursor at 129, `pos2 < pos` is false, the byte read at the cursor
is `0x0C`, and the call returns 256, whatever the local `byte` held before. -/
theorem get_palette_size_short_file :
    exScannedShort.version = 5 ∧
    exScannedShort.scanlines_read = exScannedShort.height ∧
    exScannedShort.file.bytes.length = 130 ∧
    ftell exScannedShort.file = 129 ∧
    (exScannedShort.file.bytes.length : Int) - 769 < ftell exScannedShort.file ∧
    ftell (fseek_end exScannedShort.file PALETTE_FLAG_OFFSET) = 129 ∧
    exScannedShort.file.bytes.getD 129 0 = 0x0C ∧
    (pcx_get_palette_size exScannedShort 0).1 = 256 ∧
    (pcx_get_palette_size exScannedShort 0).2.palette_size = 256 ∧
    ∀ byte : Nat, (pcx_get_palette_size exScannedShort byte).1 = 256 := by
  refine ⟨by decide, by decide, by decide, by decide, by decide, by decide, by decide,
    by decide, by decide, ?_⟩
  intro byte
  rfl

/-! ### The cached palette size -/

set_option maxRecDepth 100000 in
/-- C9, as stated, fails: on the handle of a version 5 file with a trailer,
`pcx_get_palette_size` returns 256 and leaves the cursor behind the flag byte;
called again at once it returns 16, and so it does when called again after a
`pcx_read_palette`. -/
theorem palette_size_changes_on_second_call :
    (pcx_get_palette_size exScanned256 0).1 = 256 ∧
    (pcx_get_palette_size (pcx_get_palette_size exScanned256 0).2 0).1 = 16 ∧
    (pcx_get_palette_size (pcx_get_palette_size exScanned256 0).2 0).2.palette_size = 16 ∧
    (pcx_read_palette (pcx_get_palette_size exScanned256 0).2 zeroPalette zeroLine).1 =
      PCX_ERR_NONE ∧
    (pcx_get_palette_size
      (pcx_read_palette (pcx_get_palette_size exScanned256 0).2 zeroPalette zeroLine).2.1 0).1
      = 16 := by
  refine ⟨by decide, by decide, by decide, by decide, by decide⟩

theorem read_palettes_fields (calls : List ((Nat → PCXPaletteEntry) × (Nat → Nat))) :
    ∀ file : PCXFile,
      (read_palettes calls file).palette_size = file.palette_size ∧
      (read_palettes calls file).scanlines_read = file.scanlines_read ∧
      (read_palettes calls file).height = file.height ∧
      (read_palettes calls file).version = file.version := by
  induction calls with
  | nil => intro file; exact ⟨rfl, rfl, rfl, rfl⟩
  | cons c cs ih =>
    intro file
    obtain ⟨h1, h2, h3, -, h5⟩ := read_palette_fields file c.1 c.2
    obtain ⟨i1, i2, i3, i4⟩ := ih (pcx_read_palette file c.1 c.2).2.1
    rw [read_palettes, i1, i2, i3, i4, h1, h2, h3, h5]
    exact ⟨rfl, rfl, rfl, rfl⟩

/-- C9, amended: once `pcx_get_palette_size` has returned a size `s` in
`{16, 256}`, `palette_size` is `s` and stays `s` through any number of
`pcx_read_palette` calls; a later `pcx_get_palette_size` call computes the size
anew, and returns the same `s` when `version != 5`. -/
theorem palette_size_after_resolution (file : PCXFile) (byte : Nat) (s : Nat)
    (hret : (pcx_get_palette_size file byte).1 = s) (hs : s = 16 ∨ s = 256)
    (calls : List ((Nat → PCXPaletteEntry) × (Nat → Nat))) :
    (pcx_get_palette_size file byte).2.palette_size = s ∧
    (read_palettes calls (pcx_get_palette_size file byte).2).palette_size = s ∧
    (file.version ≠ 5 → ∀ byte2 : Nat,
      (pcx_get_palette_size (read_palettes calls (pcx_get_palette_size file byte).2) byte2).1
        = s) := by
  have hne : (pcx_get_palette_size file byte).1 ≠ PCX_ERR_USAGE := by
    rw [hret]; rcases hs with h | h <;> (rw [h]; decide)
  have heq : file.scanlines_read = file.height := by
    by_contra hc
    exact hne ((get_palette_size_usage_iff file byte).2 hc)
  obtain ⟨-, r2, r3, r4, -, r6⟩ := get_palette_size_resolved file byte heq
  obtain ⟨p1, p2, p3, p4⟩ := read_palettes_fields calls (pcx_get_palette_size file byte).2
  refine ⟨by rw [r2, hret], by rw [p1, r2, hret], ?_⟩
  intro hv byte2
  have hs16 : s = 16 := by
    rw [← hret, get_palette_size_legacy file byte hv heq]
  rw [get_palette_size_legacy _ byte2 (by rw [p4, r6]; exact hv) (by rw [p2, p3, r3, r4]; exact heq),
    hs16]

set_option maxRecDepth 100000 in
/-- The resolved size through repeated palette reads, for a version 3 file and
for a version 5 file with a trailer. -/
theorem palette_size_after_resolution_witness :
    (pcx_get_palette_size exScanned3 0).1 = 16 ∧ (16 = 16 ∨ 16 = 256) ∧
    exScanned3.version ≠ 5 ∧
    ((pcx_get_palette_size exScanned3 0).2.palette_size = 16 ∧
      (read_palettes [(zeroPalette, zeroLine), (zeroPalette, zeroLine)]
        (pcx_get_palette_size exScanned3 0).2).palette_size = 16 ∧
      (pcx_get_palette_size (read_palettes [(zeroPalette, zeroLine), (zeroPalette, zeroLine)]
        (pcx_get_palette_size exScanned3 0).2) 0x0C).1 = 16) ∧
    (pcx_get_palette_size exScanned256 0).1 = 256 ∧ (256 = 16 ∨ 256 = 256) ∧
    (read_palettes [(zeroPalette, zeroLine)]
      (pcx_get_palette_size exScanned256 0).2).palette_size = 256 :=
  ⟨by decide, by decide, by decide,
    ⟨(palette_size_after_resolution exScanned3 0 16 (by decide) (by decide)
        [(zeroPalette, zeroLine), (zeroPalette, zeroLine)]).1,
      (palette_size_after_resolution exScanned3 0 16 (by decide) (by decide)
        [(zeroPalette, zeroLine), (zeroPalette, zeroLine)]).2.1,
      (palette_size_after_resolution exScanned3 0 16 (by decide) (by decide)
        [(zeroPalette, zeroLine), (zeroPalette, zeroLine)]).2.2 (by decide) 0x0C⟩,
    by decide, by decide,
    (palette_size_after_resolution exScanned256 0 256 (by decide) (by decide)
      [(zeroPalette, zeroLine)]).2.1⟩

/-! ### `pcx_read_palette` -/

/-- C10: with `palette_size` neither 16 nor 256, as `pcx_open_file` leaves it
(it stores 0), `pcx_read_palette` returns `PCX_ERR_USAGE` and leaves the handle,
its stream cursor included, and the caller's palette buffer as they were; with
`palette_size` 16 or 256 it returns `PCX_ERR_NONE`. -/
theorem read_palette_precondition (file : PCXFile) (palette : Nat → PCXPaletteEntry)
    (palette_buf : Nat → Nat) (contents : Option (List Nat)) (data : PCXFile) :
    (file.palette_size ≠ 16 → file.palette_size ≠ 256 →
      (pcx_read_palette file palette palette_buf).1 = PCX_ERR_USAGE ∧
      (pcx_read_palette file palette palette_buf).2.1.file.pos = file.file.pos ∧
      (pcx_read_palette file palette palette_buf).2.1 = file ∧
      (pcx_read_palette file palette palette_buf).2.2 = palette) ∧
    (file.palette_size = 16 ∨ file.palette_size = 256 →
      (pcx_read_palette file palette palette_buf).1 = PCX_ERR_NONE) ∧
    ((pcx_open_file contents data).2.palette_size ≠ 16 ∧
      (pcx_open_file contents data).2.palette_size ≠ 256 ∧
      (pcx_read_palette (pcx_open_file contents data).2 palette palette_buf).1 =
        PCX_ERR_USAGE) := by
  refine ⟨?_, read_palette_code file palette palette_buf, ?_⟩
  · intro h16 h256
    rw [read_palette_usage file palette palette_buf h16 h256]
    exact ⟨rfl, rfl, rfl, rfl⟩
  · have h0 := (open_file_resets contents data).2
    have h16 : (pcx_open_file contents data).2.palette_size ≠ 16 := by rw [h0]; decide
    have h256 : (pcx_open_file contents data).2.palette_size ≠ 256 := by rw [h0]; decide
    refine ⟨h16, h256, ?_⟩
    rw [read_palette_usage _ palette palette_buf h16 h256]

set_option maxRecDepth 100000 in
/-- The palette read before and after the size of `exFile256` is resolved. -/
theorem read_palette_precondition_witness :
    (exScanned256.palette_size ≠ 16 ∧ exScanned256.palette_size ≠ 256) ∧
    ((pcx_read_palette exScanned256 zeroPalette zeroLine).1 = PCX_ERR_USAGE ∧
      (pcx_read_palette exScanned256 zeroPalette zeroLine).2.1.file.pos =
        exScanned256.file.pos ∧
      (pcx_read_palette exScanned256 zeroPalette zeroLine).2.1 = exScanned256 ∧
      (pcx_read_palette exScanned256 zeroPalette zeroLine).2.2 = zeroPalette) ∧
    ((pcx_get_palette_size exScanned256 0).2.palette_size = 16 ∨
      (pcx_get_palette_size exScanned256 0).2.palette_size = 256) ∧
    (pcx_read_palette (pcx_get_palette_size exScanned256 0).2 zeroPalette zeroLine).1 =
      PCX_ERR_NONE :=
  ⟨⟨by decide, by decide⟩,
    (read_palette_precondition exScanned256 zeroPalette zeroLine none blankHandle).1
      (by decide) (by decide),
    by decide,
    (read_palette_precondition (pcx_get_palette_size exScanned256 0).2 zeroPalette zeroLine
      none blankHandle).2.1 (by decide)⟩

theorem unread_start (bytes : List Nat) : unread ⟨bytes, 0⟩ = bytes := by
  simp [unread]

theorem open_file_short (bytes : List Nat) (data : PCXFile)
    (h : bytes.length < sizeof_PCXFileHeader) :
    (pcx_open_file (some bytes) data).1 = PCX_ERR_INVALID := by
  simp only [pcx_open_file, fread_count, unread_start]
  rw [if_pos]
  simp only [sizeof_PCXFileHeader] at h ⊢
  omega

theorem open_file_eq (bytes : List Nat) (data : PCXFile)
    (h : sizeof_PCXFileHeader ≤ bytes.length) :
    pcx_open_file (some bytes) data =
      if bytes.getD 0 0 ≠ FILE_IDENTIFICATION then
        (PCX_ERR_INVALID, { data with scanlines_read := 0, palette_size := 0, file := ⟨bytes, 74⟩ })
      else if bytes.getD 3 0 ≠ 8 then
        (PCX_ERR_UNSUPPORTED, { data with scanlines_read := 0, palette_size := 0, file := ⟨bytes, 74⟩ })
      else if bytes.getD 65 0 ≠ 1 then
        (PCX_ERR_UNSUPPORTED, { data with scanlines_read := 0, palette_size := 0, file := ⟨bytes, 74⟩ })
      else
        (PCX_ERR_NONE,
          { file := ⟨bytes, 128⟩
            width := extent (word16 bytes 8) (word16 bytes 4)
            height := extent (word16 bytes 10) (word16 bytes 6)
            scanlines_read := 0
            palette_size := 0
            version := bytes.getD 1 0 }) := by
  simp only [sizeof_PCXFileHeader] at h
  have hc : fread_count ⟨bytes, 0⟩ 74 1 = 74 := by
    simp only [fread_count, unread_start]; omega
  simp [pcx_open_file, fread_block, unread_start, header_u16, word16, fseek_set,
    FILE_DATA_OFFSET, sizeof_PCXFileHeader, hc]

theorem extent_cast (cmax cmin : Nat) :
    ((extent cmax cmin : Nat) : Int) = ((cmax : Int) - (cmin : Int) + 1) % 65536 := by
  simp only [extent]
  omega

theorem extent_le (cmax cmin : Nat) (h : cmin ≤ cmax) :
    extent cmax cmin = (cmax - cmin + 1) % 65536 := by
  have := extent_cast cmax cmin
  omega

theorem open_file_valid (bytes : List Nat) (data : PCXFile)
    (h : sizeof_PCXFileHeader ≤ bytes.length) (hid : bytes.getD 0 0 = 10)
    (hbpp : bytes.getD 3 0 = 8) (hplanes : bytes.getD 65 0 = 1) :
    pcx_open_file (some bytes) data =
      (PCX_ERR_NONE,
        { file := ⟨bytes, 128⟩
          width := extent (word16 bytes 8) (word16 bytes 4)
          height := extent (word16 bytes 10) (word16 bytes 6)
          scanlines_read := 0
          palette_size := 0
          version := bytes.getD 1 0 }) := by
  rw [open_file_eq bytes data h, if_neg (not_not.mpr (show bytes.getD 0 0 = FILE_IDENTIFICATION from hid)), if_neg (not_not.mpr hbpp),
    if_neg (not_not.mpr hplanes)]

set_option maxRecDepth 100000 in
/-- C12, as stated, fails: a valid header with `xmin = 0` and `xmax = 65535`
is opened with `width = 0`, not `65536`. -/
theorem open_file_full_span_width :
    word16 (headerBytes 5 0 0 65535 0) 4 = 0 ∧ word16 (headerBytes 5 0 0 65535 0) 8 = 65535 ∧
    (pcx_open_file (some (headerBytes 5 0 0 65535 0)) blankHandle).1 = PCX_ERR_NONE ∧
    (pcx_open_file (some (headerBytes 5 0 0 65535 0)) blankHandle).2.width = 0 ∧
    (pcx_open_file (some (headerBytes 5 0 0 65535 0)) blankHandle).2.width ≠ 65535 - 0 + 1 := by
  refine ⟨by decide, by decide, by decide, by decide, by decide⟩

/-- C12, amended: a header that passes validation, with 16-bit coordinates
`xmin <= xmax` and `ymin <= ymax`, is opened with
`width = (xmax - xmin + 1) mod 65536` and `height = (ymax - ymin + 1) mod 65536`;
these are `xmax - xmin + 1` and `ymax - ymin + 1` unless the difference is
65535, where the 16-bit field holds 0. -/
theorem open_file_extent (bytes : List Nat) (data : PCXFile)
    (h : sizeof_PCXFileHeader ≤ bytes.length) (hid : bytes.getD 0 0 = 10)
    (hbpp : bytes.getD 3 0 = 8) (hplanes : bytes.getD 65 0 = 1)
    (hx : word16 bytes 4 ≤ word16 bytes 8) (hy : word16 bytes 6 ≤ word16 bytes 10) :
    (pcx_open_file (some bytes) data).1 = PCX_ERR_NONE ∧
    (pcx_open_file (some bytes) data).2.width =
      (word16 bytes 8 - word16 bytes 4 + 1) % 65536 ∧
    (pcx_open_file (some bytes) data).2.height =
      (word16 bytes 10 - word16 bytes 6 + 1) % 65536 ∧
    (word16 bytes 8 - word16 bytes 4 < 65535 →
      (pcx_open_file (some bytes) data).2.width = word16 bytes 8 - word16 bytes 4 + 1) ∧
    (word16 bytes 10 - word16 bytes 6 < 65535 →
      (pcx_open_file (some bytes) data).2.height = word16 bytes 10 - word16 bytes 6 + 1) ∧
    (word16 bytes 8 - word16 bytes 4 = 65535 → (pcx_open_file (some bytes) data).2.width = 0) ∧
    (word16 bytes 10 - word16 bytes 6 = 65535 →
      (pcx_open_file (some bytes) data).2.height = 0) := by
  rw [open_file_valid bytes data h hid hbpp hplanes]
  have hw := extent_le _ _ hx
  have hh := extent_le _ _ hy
  refine ⟨rfl, hw, hh, fun h1 => ?_, fun h1 => ?_, fun h1 => ?_, fun h1 => ?_⟩
  · show extent (word16 bytes 8) (word16 bytes 4) = _
    omega
  · show extent (word16 bytes 10) (word16 bytes 6) = _
    omega
  · show extent (word16 bytes 8) (word16 bytes 4) = _
    omega
  · show extent (word16 bytes 10) (word16 bytes 6) = _
    omega

set_option maxRecDepth 100000 in
/-- The extents of the 2 x 2 image `exFile2`. -/
theorem open_file_extent_witness :
    (sizeof_PCXFileHeader ≤ exFile2.length ∧ exFile2.getD 0 0 = 10 ∧ exFile2.getD 3 0 = 8 ∧
      exFile2.getD 65 0 = 1 ∧ word16 exFile2 4 ≤ word16 exFile2 8 ∧
      word16 exFile2 6 ≤ word16 exFile2 10) ∧
    (pcx_open_file (some exFile2) blankHandle).1 = PCX_ERR_NONE ∧
    (pcx_open_file (some exFile2) blankHandle).2.width = 2 ∧
    (pcx_open_file (some exFile2) blankHandle).2.height = 2 :=
  ⟨⟨by decide, by decide, by decide, by decide, by decide, by decide⟩,
    (open_file_extent exFile2 blankHandle (by decide) (by decide) (by decide) (by decide)
      (by decide) (by decide)).1,
    ((open_file_extent exFile2 blankHandle (by decide) (by decide) (by decide) (by decide)
      (by decide) (by decide)).2.2.2.1 (by decide)).trans (by decide),
    ((open_file_extent exFile2 blankHandle (by decide) (by decide) (by decide) (by decide)
      (by decide) (by decide)).2.2.2.2.1 (by decide)).trans (by decide)⟩

/-- C13: for a file that holds the whole `PCXFileHeader` struct, `pcx_open_file`
returns `PCX_ERR_INVALID` if byte 0 is not 10, else `PCX_ERR_UNSUPPORTED` if
byte 3 is not 8 or byte 65 is not 1, else `PCX_ERR_NONE`; two such files with
the same bytes 0, 3 and 65 get the same result whatever their other bytes. -/
theorem open_file_validation (bytes : List Nat) (data : PCXFile)
    (h : sizeof_PCXFileHeader ≤ bytes.length) :
    (pcx_open_file (some bytes) data).1 =
      (if bytes.getD 0 0 ≠ 10 then PCX_ERR_INVALID
       else if bytes.getD 3 0 ≠ 8 ∨ bytes.getD 65 0 ≠ 1 then PCX_ERR_UNSUPPORTED
       else PCX_ERR_NONE) ∧
    ∀ (bytes2 : List Nat) (data2 : PCXFile), sizeof_PCXFileHeader ≤ bytes2.length →
      bytes2.getD 0 0 = bytes.getD 0 0 → bytes2.getD 3 0 = bytes.getD 3 0 →
      bytes2.getD 65 0 = bytes.getD 65 0 →
      (pcx_open_file (some bytes2) data2).1 = (pcx_open_file (some bytes) data).1 := by
  have key : ∀ (b : List Nat) (d : PCXFile), sizeof_PCXFileHeader ≤ b.length →
      (pcx_open_file (some b) d).1 =
        (if b.getD 0 0 ≠ 10 then PCX_ERR_INVALID
         else if b.getD 3 0 ≠ 8 ∨ b.getD 65 0 ≠ 1 then PCX_ERR_UNSUPPORTED
         else PCX_ERR_NONE) := by
    intro b d hb
    rw [open_file_eq b d hb]
    simp only [FILE_IDENTIFICATION]
    by_cases h0 : b.getD 0 0 = 10
    · by_cases h3 : b.getD 3 0 = 8
      · by_cases h65 : b.getD 65 0 = 1
        · rw [if_neg (not_not.mpr h0), if_neg (not_not.mpr h3), if_neg (not_not.mpr h65),
            if_neg (not_not.mpr h0), if_neg (by rw [h3, h65]; decide)]
        · rw [if_neg (not_not.mpr h0), if_neg (not_not.mpr h3), if_pos h65,
            if_neg (not_not.mpr h0), if_pos (Or.inr h65)]
      · rw [if_neg (not_not.mpr h0), if_pos h3, if_neg (not_not.mpr h0), if_pos (Or.inl h3)]
    · rw [if_pos h0, if_pos h0]
  refine ⟨key bytes data h, ?_⟩
  intro bytes2 data2 h2 e0 e3 e65
  rw [key bytes data h, key bytes2 data2 h2, e0, e3, e65]

set_option maxRecDepth 100000 in
/-- The validation of four headers: wrong identification and bits per pixel,
wrong bits per pixel, wrong plane count, and a valid header; and of a header
that differs from the valid one in version, compression, coordinates and stride. -/
theorem open_file_validation_witness :
    (sizeof_PCXFileHeader ≤ exBadIdBpp.length ∧ sizeof_PCXFileHeader ≤ exBadBpp.length ∧
      sizeof_PCXFileHeader ≤ exBadPlanes.length ∧ sizeof_PCXFileHeader ≤ exFile.length) ∧
    (pcx_open_file (some exBadIdBpp) blankHandle).1 = PCX_ERR_INVALID ∧
    (pcx_open_file (some exBadBpp) blankHandle).1 = PCX_ERR_UNSUPPORTED ∧
    (pcx_open_file (some exBadPlanes) blankHandle).1 = PCX_ERR_UNSUPPORTED ∧
    (pcx_open_file (some exFile) blankHandle).1 = PCX_ERR_NONE ∧
    (pcx_open_file (some ([10, 3, 0, 8, 7, 7, 7, 7, 1, 1, 1, 1] ++ List.replicate 53 9 ++ [1]
        ++ List.replicate 8 255)) blankHandle).1 =
      (pcx_open_file (some exFile) blankHandle).1 :=
  ⟨⟨by decide, by decide, by decide, by decide⟩,
    ((open_file_validation exBadIdBpp blankHandle (by decide)).1).trans (by decide),
    ((open_file_validation exBadBpp blankHandle (by decide)).1).trans (by decide),
    ((open_file_validation exBadPlanes blankHandle (by decide)).1).trans (by decide),
    ((open_file_validation exFile blankHandle (by decide)).1).trans (by decide),
    (open_file_validation exFile blankHandle (by decide)).2 _ blankHandle (by decide)
      (by decide) (by decide) (by decide)⟩

set_option maxRecDepth 100000 in
/-- C14, as stated, fails: the first 127 bytes of a valid header make a file
shorter than 128 bytes that `pcx_open_file` opens with `PCX_ERR_NONE`. -/
theorem open_file_accepts_127_bytes :
    exFile127.length = 127 ∧
    (pcx_open_file (some exFile127) blankHandle).1 = PCX_ERR_NONE ∧
    (pcx_open_file (some exFile127) blankHandle).1 ≠ PCX_ERR_INVALID := by
  refine ⟨by decide, by decide, by decide⟩

/-- C14, amended: for every file shorter than the 74 bytes of the struct
`PCXFileHeader` that `pcx_open_file` reads (length 0..73), the call fails with
`PCX_ERR_INVALID`, whatever the bytes that are present. -/
theorem open_file_truncated (bytes : List Nat) (data : PCXFile) (h : bytes.length < 74) :
    sizeof_PCXFileHeader = 74 ∧ (pcx_open_file (some bytes) data).1 = PCX_ERR_INVALID :=
  ⟨rfl, open_file_short bytes data h⟩

set_option maxRecDepth 100000 in
/-- The first 73 bytes of a valid header are rejected. -/
theorem open_file_truncated_witness :
    exFile73.length < 74 ∧ (pcx_open_file (some exFile73) blankHandle).1 = PCX_ERR_INVALID :=
  ⟨by decide, (open_file_truncated exFile73 blankHandle (by decide)).2⟩

set_option maxRecDepth 100000 in
/-- C19, as stated, fails: a valid header with `xmin = 1` and `xmax = 0` is
opened with `width = 0`, which is not greater than `xmax`. -/
theorem open_file_wrap_to_zero :
    word16 (headerBytes 5 1 0 0 0) 4 = 1 ∧ word16 (headerBytes 5 1 0 0 0) 8 = 0 ∧
    (pcx_open_file (some (headerBytes 5 1 0 0 0)) blankHandle).1 = PCX_ERR_NONE ∧
    (pcx_open_file (some (headerBytes 5 1 0 0 0)) blankHandle).2.width = 0 ∧
    ¬ word16 (headerBytes 5 1 0 0 0) 8 <
      (pcx_open_file (some (headerBytes 5 1 0 0 0)) blankHandle).2.width := by
  refine ⟨by decide, by decide, by decide, by decide, by decide⟩

/-- C19, amended: a header that passes validation is opened with
`PCX_ERR_NONE` also when `xmax < xmin` or `ymax < ymin`; the width stored is
then `(xmax - xmin + 1) mod 65536`: 0 when `xmin = xmax + 1`, and otherwise
`65537 - (xmin - xmax)`, a value greater than `xmax`; likewise for the height. -/
theorem open_file_wrapped_extent (bytes : List Nat) (data : PCXFile)
    (h : sizeof_PCXFileHeader ≤ bytes.length) (hid : bytes.getD 0 0 = 10)
    (hbpp : bytes.getD 3 0 = 8) (hplanes : bytes.getD 65 0 = 1)
    (hx16 : word16 bytes 4 ≤ 65535) (hy16 : word16 bytes 6 ≤ 65535) :
    (pcx_open_file (some bytes) data).1 = PCX_ERR_NONE ∧
    (word16 bytes 8 < word16 bytes 4 →
      ((pcx_open_file (some bytes) data).2.width : Int) =
        ((word16 bytes 8 : Int) - (word16 bytes 4 : Int) + 1) % 65536 ∧
      (word16 bytes 4 = word16 bytes 8 + 1 → (pcx_open_file (some bytes) data).2.width = 0) ∧
      (word16 bytes 8 + 1 < word16 bytes 4 →
        (pcx_open_file (some bytes) data).2.width =
          65537 - (word16 bytes 4 - word16 bytes 8) ∧
        word16 bytes 8 < (pcx_open_file (some bytes) data).2.width)) ∧
    (word16 bytes 10 < word16 bytes 6 →
      ((pcx_open_file (some bytes) data).2.height : Int) =
        ((word16 bytes 10 : Int) - (word16 bytes 6 : Int) + 1) % 65536 ∧
      (word16 bytes 6 = word16 bytes 10 + 1 → (pcx_open_file (some bytes) data).2.height = 0) ∧
      (word16 bytes 10 + 1 < word16 bytes 6 →
        (pcx_open_file (some bytes) data).2.height =
          65537 - (word16 bytes 6 - word16 bytes 10) ∧
        word16 bytes 10 < (pcx_open_file (some bytes) data).2.height)) := by
  rw [open_file_valid bytes data h hid hbpp hplanes]
  have hw := extent_cast (word16 bytes 8) (word16 bytes 4)
  have hh := extent_cast (word16 bytes 10) (word16 bytes 6)
  refine ⟨rfl, fun hlt => ⟨hw, fun h1 => ?_, fun h1 => ?_⟩, fun hlt => ⟨hh, fun h1 => ?_, fun h1 => ?_⟩⟩
  · show extent (word16 bytes 8) (word16 bytes 4) = 0
    omega
  · show extent (word16 bytes 8) (word16 bytes 4) = _ ∧ _ < extent (word16 bytes 8) (word16 bytes 4)
    omega
  · show extent (word16 bytes 10) (word16 bytes 6) = 0
    omega
  · show extent (word16 bytes 10) (word16 bytes 6) = _ ∧
      _ < extent (word16 bytes 10) (word16 bytes 6)
    omega

set_option maxRecDepth 100000 in
/-- The wrapped extents of a header with `xmin = 5, xmax = 2` (width 65534) and
`ymin = 1, ymax = 0` (height 0). -/
theorem open_file_wrapped_extent_witness :
    (sizeof_PCXFileHeader ≤ (headerBytes 5 5 1 2 0).length ∧
      (headerBytes 5 5 1 2 0).getD 0 0 = 10 ∧ (headerBytes 5 5 1 2 0).getD 3 0 = 8 ∧
      (headerBytes 5 5 1 2 0).getD 65 0 = 1 ∧ word16 (headerBytes 5 5 1 2 0) 4 ≤ 65535 ∧
      word16 (headerBytes 5 5 1 2 0) 6 ≤ 65535) ∧
    (pcx_open_file (some (headerBytes 5 5 1 2 0)) blankHandle).1 = PCX_ERR_NONE ∧
    (word16 (headerBytes 5 5 1 2 0) 8 + 1 < word16 (headerBytes 5 5 1 2 0) 4 ∧
      (pcx_open_file (some (headerBytes 5 5 1 2 0)) blankHandle).2.width = 65534) ∧
    (word16 (headerBytes 5 5 1 2 0) 6 = word16 (headerBytes 5 5 1 2 0) 10 + 1 ∧
      (pcx_open_file (some (headerBytes 5 5 1 2 0)) blankHandle).2.height = 0) :=
  ⟨⟨by decide, by decide, by decide, by decide, by decide, by decide⟩,
    (open_file_wrapped_extent (headerBytes 5 5 1 2 0) blankHandle (by decide) (by decide)
      (by decide) (by decide) (by decide) (by decide)).1,
    ⟨by decide,
      (((open_file_wrapped_extent (headerBytes 5 5 1 2 0) blankHandle (by decide) (by decide)
        (by decide) (by decide) (by decide) (by decide)).2.1 (by decide)).2.2
          (by decide)).1.trans (by decide)⟩,
    ⟨by decide,
      ((open_file_wrapped_extent (headerBytes 5 5 1 2 0) blankHandle (by decide) (by decide)
        (by decide) (by decide) (by decide) (by decide)).2.2 (by decide)).2.1 (by decide)⟩⟩

/-! ### `pcx_read_palette`: the entries -/

theorem copyPalette_apply (n : Nat) (buf : Nat → Nat) (palette : Nat → PCXPaletteEntry)
    (i : Nat) :
    copyPalette n buf palette i = if i < n then entryAt buf i else palette i := by
  induction n with
  | zero => simp [copyPalette]
  | succ n ih =>
    simp only [copyPalette] at ih ⊢
    rw [List.range_succ, List.foldl_append]
    simp only [List.foldl_cons, List.foldl_nil, Function.update]
    by_cases h : i = n
    · subst h; simp
    · simp only [h, dite_false, eq_rec_constant]
      rw [ih]
      by_cases h2 : i < n
      · rw [if_pos h2, if_pos (by omega)]
      · rw [if_neg h2, if_neg (by omega)]

theorem getD_drop (bytes : List Nat) (p j : Nat) :
    (bytes.drop p).getD j 0 = bytes.getD (p + j) 0 := by
  simp [List.getD_eq_getElem?_getD, List.getElem?_drop]

theorem fread_block_inside (bytes : List Nat) (p : Nat) (size n : Nat) (buf : Nat → Nat)
    (h : p + size * n ≤ bytes.length) :
    fread_block ⟨bytes, (p : Int)⟩ size n buf =
      (⟨bytes, (p : Int) + ((size * n : Nat) : Int)⟩,
        fun j => if j < size * n then bytes.getD (p + j) 0 else buf j) := by
  have hu : unread ⟨bytes, (p : Int)⟩ = bytes.drop p := by
    simp [unread]
  have hc : fread_count ⟨bytes, (p : Int)⟩ size n = size * n := by
    simp only [fread_count, hu, List.length_drop]; omega
  simp only [fread_block, hc, hu, getD_drop]

theorem read_palette_16 (file : PCXFile) (palette : Nat → PCXPaletteEntry)
    (palette_buf : Nat → Nat) (hps : file.palette_size = 16)
    (hlen : 64 ≤ file.file.bytes.length) :
    pcx_read_palette file palette palette_buf =
      (PCX_ERR_NONE, { file with file := ⟨file.file.bytes, 64⟩ },
        paletteAt file.file.bytes 16 16 palette) := by
  have hb := fread_block_inside file.file.bytes 16 3 16 palette_buf (by omega)
  simp only [pcx_read_palette, PCX_PALETTE_16, PCX_PALETTE_256, fseek_set, offsetof_color_map]
  rw [if_pos hps, hps]
  have e : ((16 : Nat) : Int) = 16 := rfl
  rw [e] at hb
  rw [hb]
  refine Prod.ext rfl (Prod.ext ?_ ?_)
  · simp
  · funext i
    simp only [copyPalette_apply, paletteAt, entryAt]
    by_cases hi : i < 16
    · rw [if_pos hi, if_pos hi, if_pos (by omega), if_pos (by omega), if_pos (by omega)]
      simp [Nat.add_assoc]
    · rw [if_neg hi, if_neg hi]

theorem read_palette_256 (file : PCXFile) (palette : Nat → PCXPaletteEntry)
    (palette_buf : Nat → Nat) (hps : file.palette_size = 256)
    (hlen : 768 ≤ file.file.bytes.length) :
    pcx_read_palette file palette palette_buf =
      (PCX_ERR_NONE, { file with file := ⟨file.file.bytes, file.file.bytes.length⟩ },
        paletteAt file.file.bytes (file.file.bytes.length - 768) 256 palette) := by
  have hb := fread_block_inside file.file.bytes (file.file.bytes.length - 768) 3 256
    palette_buf (by omega)
  have e : (((file.file.bytes.length - 768 : Nat)) : Int) =
      (file.file.bytes.length : Int) + (PALETTE_FLAG_OFFSET + 1) := by
    simp only [PALETTE_FLAG_OFFSET]; omega
  have hseek := fseek_end_inside file.file (PALETTE_FLAG_OFFSET + 1)
    (by simp only [PALETTE_FLAG_OFFSET]; omega)
  simp only [pcx_read_palette, PCX_PALETTE_16, PCX_PALETTE_256, hseek]
  have hp : (((file.file.bytes.length - 768 : Nat)) : Int) + ((3 * 256 : Nat) : Int) =
      (file.file.bytes.length : Int) := by
    omega
  rw [if_neg (by rw [hps]; decide), if_pos hps, hps, ← e, hb, hp]
  refine Prod.ext rfl (Prod.ext rfl ?_)
  · funext i
    simp only [copyPalette_apply, paletteAt, entryAt]
    by_cases hi : i < 256
    · rw [if_pos hi, if_pos hi, if_pos (by omega), if_pos (by omega), if_pos (by omega)]
      simp [Nat.add_assoc]
    · rw [if_neg hi, if_neg hi]

theorem paletteAt_idem (bytes : List Nat) (off n : Nat) (palette : Nat → PCXPaletteEntry) :
    paletteAt bytes off n (paletteAt bytes off n palette) = paletteAt bytes off n palette := by
  funext i
  simp only [paletteAt]
  split <;> rfl

/-- C11: with `palette_size == 16` on a file that holds the color map,
`pcx_read_palette` returns `PCX_ERR_NONE` and stores 16 entries, entry `i` made
of the bytes at offsets `16 + 3 i`, `17 + 3 i`, `18 + 3 i`; with
`palette_size == 256` on a file of length `L >= 769` it stores 256 entries,
entry `i` made of the bytes at offsets `L - 768 + 3 i`, `L - 767 + 3 i`,
`L - 766 + 3 i`.  Entries beyond are left alone, the palette stored is the same
for every cursor position and every content of the local array, and a second
call in a row stores the same palette again. -/
theorem read_palette_entries (file : PCXFile) (palette : Nat → PCXPaletteEntry)
    (palette_buf : Nat → Nat) :
    (file.palette_size = 16 → 64 ≤ file.file.bytes.length →
      (pcx_read_palette file palette palette_buf).1 = PCX_ERR_NONE ∧
      (∀ i, i < 16 → (pcx_read_palette file palette palette_buf).2.2 i =
        ⟨file.file.bytes.getD (16 + 3 * i) 0, file.file.bytes.getD (17 + 3 * i) 0,
          file.file.bytes.getD (18 + 3 * i) 0⟩) ∧
      (∀ i, 16 ≤ i → (pcx_read_palette file palette palette_buf).2.2 i = palette i) ∧
      (∀ (pos2 : Int) (buf2 : Nat → Nat),
        (pcx_read_palette { file with file := ⟨file.file.bytes, pos2⟩ } palette buf2).2.2 =
          (pcx_read_palette file palette palette_buf).2.2) ∧
      (∀ buf2 : Nat → Nat,
        (pcx_read_palette (pcx_read_palette file palette palette_buf).2.1
          (pcx_read_palette file palette palette_buf).2.2 buf2).2.2 =
          (pcx_read_palette file palette palette_buf).2.2)) ∧
    (file.palette_size = 256 → 769 ≤ file.file.bytes.length →
      (pcx_read_palette file palette palette_buf).1 = PCX_ERR_NONE ∧
      (∀ i, i < 256 → (pcx_read_palette file palette palette_buf).2.2 i =
        ⟨file.file.bytes.getD (file.file.bytes.length - 768 + 3 * i) 0,
          file.file.bytes.getD (file.file.bytes.length - 767 + 3 * i) 0,
          file.file.bytes.getD (file.file.bytes.length - 766 + 3 * i) 0⟩) ∧
      (∀ i, 256 ≤ i → (pcx_read_palette file palette palette_buf).2.2 i = palette i) ∧
      (∀ (pos2 : Int) (buf2 : Nat → Nat),
        (pcx_read_palette { file with file := ⟨file.file.bytes, pos2⟩ } palette buf2).2.2 =
          (pcx_read_palette file palette palette_buf).2.2) ∧
      (∀ buf2 : Nat → Nat,
        (pcx_read_palette (pcx_read_palette file palette palette_buf).2.1
          (pcx_read_palette file palette palette_buf).2.2 buf2).2.2 =
          (pcx_read_palette file palette palette_buf).2.2)) := by
  constructor
  · intro hps hlen
    rw [read_palette_16 file palette palette_buf hps hlen]
    refine ⟨rfl, ?_, ?_, ?_, ?_⟩
    · intro i hi
      simp only [paletteAt]
      rw [if_pos hi]
      have e1 : 16 + 3 * i + 1 = 17 + 3 * i := by omega
      have e2 : 16 + 3 * i + 2 = 18 + 3 * i := by omega
      rw [e1, e2]
    · intro i hi
      simp only [paletteAt]
      rw [if_neg (by omega)]
    · intro pos2 buf2
      rw [read_palette_16 { file with file := ⟨file.file.bytes, pos2⟩ } palette buf2 hps hlen]
    · intro buf2
      simp only
      rw [read_palette_16 { file with file := ⟨file.file.bytes, 64⟩ }
        (paletteAt file.file.bytes 16 16 palette) buf2 hps hlen]
      exact paletteAt_idem _ _ _ _
  · intro hps hlen
    rw [read_palette_256 file palette palette_buf hps (by omega)]
    refine ⟨rfl, ?_, ?_, ?_, ?_⟩
    · intro i hi
      simp only [paletteAt]
      rw [if_pos hi]
      have e1 : file.file.bytes.length - 768 + 3 * i + 1 =
          file.file.bytes.length - 767 + 3 * i := by omega
      have e2 : file.file.bytes.length - 768 + 3 * i + 2 =
          file.file.bytes.length - 766 + 3 * i := by omega
      rw [e1, e2]
    · intro i hi
      simp only [paletteAt]
      rw [if_neg (by omega)]
    · intro pos2 buf2
      rw [read_palette_256 { file with file := ⟨file.file.bytes, pos2⟩ } palette buf2 hps
        (show 768 ≤ file.file.bytes.length by omega)]
    · intro buf2
      simp only
      rw [read_palette_256 { file with file := ⟨file.file.bytes, file.file.bytes.length⟩ }
        (paletteAt file.file.bytes (file.file.bytes.length - 768) 256 palette) buf2 hps
        (show 768 ≤ file.file.bytes.length by omega)]
      exact paletteAt_idem _ _ _ _

set_option maxRecDepth 100000 in
/-- The palette read at `exPalette16` (entry 1 is made of the bytes 19, 20, 21)
and at `exPalette256` (entry 1 is made of the bytes at offsets 5, 6, 7). -/
theorem read_palette_entries_witness :
    (exPalette16.palette_size = 16 ∧ 64 ≤ exPalette16.file.bytes.length) ∧
    (pcx_read_palette exPalette16 zeroPalette zeroLine).1 = PCX_ERR_NONE ∧
    (pcx_read_palette exPalette16 zeroPalette zeroLine).2.2 1 = ⟨19, 20, 21⟩ ∧
    (exPalette256.palette_size = 256 ∧ 769 ≤ exPalette256.file.bytes.length) ∧
    (pcx_read_palette exPalette256 zeroPalette zeroLine).1 = PCX_ERR_NONE ∧
    (pcx_read_palette exPalette256 zeroPalette zeroLine).2.2 1 = ⟨5, 6, 7⟩ :=
  ⟨⟨by decide, by decide⟩,
    ((read_palette_entries exPalette16 zeroPalette zeroLine).1 (by decide) (by decide)).1,
    (((read_palette_entries exPalette16 zeroPalette zeroLine).1 (by decide)
      (by decide)).2.1 1 (by decide)).trans (by decide),
    ⟨by decide, by decide⟩,
    ((read_palette_entries exPalette256 zeroPalette zeroLine).2 (by decide) (by decide)).1,
    (((read_palette_entries exPalette256 zeroPalette zeroLine).2 (by decide)
      (by decide)).2.1 1 (by decide)).trans (by decide)⟩

/-! ### The decoding loop, case by case -/

theorem expandTokens_run (b v : Nat) (rest : List Nat) (h : b &&& 0xC0 = 0xC0) :
    expandTokens (b :: v :: rest) = List.replicate (b &&& 0x3F) v ++ expandTokens rest := by
  simp [expandTokens, h]

theorem expandTokens_marker (b : Nat) (h : b &&& 0xC0 = 0xC0) : expandTokens [b] = [] := by
  simp [expandTokens, h]

theorem expandTokens_lit (b : Nat) (rest : List Nat) (h : ¬ b &&& 0xC0 = 0xC0) :
    expandTokens (b :: rest) = b :: expandTokens rest := by
  cases rest with
  | nil => simp [expandTokens, h]
  | cons v tl => simp [expandTokens, h]

theorem decodeLoop_done (width : Nat) (rest : List Nat) (consumed count : Nat)
    (scanline : Nat → Nat) (hc : ¬ count < width) :
    decodeLoop width rest consumed count scanline =
      ⟨PCX_ERR_NONE, consumed, count, scanline⟩ := by
  cases rest <;> (unfold decodeLoop; rw [if_neg hc])

theorem decodeLoop_eof (width : Nat) (consumed count : Nat) (scanline : Nat → Nat)
    (hc : count < width) :
    decodeLoop width [] consumed count scanline =
      ⟨PCX_ERR_INVALID, consumed, count, scanline⟩ := by
  unfold decodeLoop; rw [if_pos hc]

theorem decodeLoop_eof2 (width : Nat) (b : Nat) (consumed count : Nat) (scanline : Nat → Nat)
    (hc : count < width) (hb : b &&& 0xC0 = 0xC0) :
    decodeLoop width [b] consumed count scanline =
      ⟨PCX_ERR_INVALID, consumed + 1, count, scanline⟩ := by
  unfold decodeLoop
  rw [if_pos hc, if_pos (show b &&& RLE_LEN_FLAG = RLE_LEN_FLAG from hb)]

theorem decodeLoop_run (width : Nat) (b v : Nat) (rest : List Nat) (consumed count : Nat)
    (scanline : Nat → Nat) (hc : count < width) (hb : b &&& 0xC0 = 0xC0) :
    decodeLoop width (b :: v :: rest) consumed count scanline =
      decodeLoop width rest (consumed + 2) (count + (b &&& 0x3F))
        (overlay scanline count (List.replicate (b &&& 0x3F) v)) := by
  conv => lhs; unfold decodeLoop
  rw [if_pos hc, if_pos (show b &&& RLE_LEN_FLAG = RLE_LEN_FLAG from hb)]
  simp only [writeRun_eq, RLE_LEN_MASK]

theorem decodeLoop_lit (width : Nat) (b : Nat) (rest : List Nat) (consumed count : Nat)
    (scanline : Nat → Nat) (hc : count < width) (hb : ¬ b &&& 0xC0 = 0xC0) :
    decodeLoop width (b :: rest) consumed count scanline =
      decodeLoop width rest (consumed + 1) (count + 1) (overlay scanline count [b]) := by
  conv => lhs; unfold decodeLoop
  rw [if_pos hc, if_neg (show ¬ b &&& RLE_LEN_FLAG = RLE_LEN_FLAG from hb)]
  simp only [writeRun_eq, List.replicate]

/-- Induction along the run of the decoding loop: a property of the unread
bytes, the loop variables and the exit state holds for every run when it holds
at each of the three exits and is carried back over a run token and over a
literal token. -/
theorem decodeLoop_cases (width : Nat)
    (P : List Nat → Nat → Nat → (Nat → Nat) → LoopResult → Prop)
    (done : ∀ rest consumed count scanline, ¬ count < width →
      P rest consumed count scanline ⟨PCX_ERR_NONE, consumed, count, scanline⟩)
    (eof : ∀ consumed count scanline, count < width →
      P [] consumed count scanline ⟨PCX_ERR_INVALID, consumed, count, scanline⟩)
    (eof2 : ∀ b consumed count scanline, count < width → b &&& 0xC0 = 0xC0 →
      P [b] consumed count scanline ⟨PCX_ERR_INVALID, consumed + 1, count, scanline⟩)
    (run : ∀ b v rest consumed count scanline r, count < width → b &&& 0xC0 = 0xC0 →
      P rest (consumed + 2) (count + (b &&& 0x3F))
        (overlay scanline count (List.replicate (b &&& 0x3F) v)) r →
      P (b :: v :: rest) consumed count scanline r)
    (lit : ∀ b rest consumed count scanline r, count < width → ¬ b &&& 0xC0 = 0xC0 →
      P rest (consumed + 1) (count + 1) (overlay scanline count [b]) r →
      P (b :: rest) consumed count scanline r) :
    ∀ (n : Nat) (rest : List Nat), rest.length = n → ∀ (consumed count : Nat)
      (scanline : Nat → Nat),
      P rest consumed count scanline (decodeLoop width rest consumed count scanline) := by
  intro n
  induction n using Nat.strong_induction_on with
  | _ n ih =>
    intro rest hn consumed count scanline
    by_cases hc : count < width
    · match rest, hn with
      | [], _ =>
        rw [decodeLoop_eof width _ _ _ hc]
        exact eof _ _ _ hc
      | b :: rest, hn =>
        by_cases hb : b &&& 0xC0 = 0xC0
        · match rest, hn with
          | [], _ =>
            rw [decodeLoop_eof2 width b _ _ _ hc hb]
            exact eof2 b _ _ _ hc hb
          | v :: rest2, hn =>
            rw [decodeLoop_run width b v rest2 _ _ _ hc hb]
            exact run b v rest2 _ _ _ _ hc hb
              (ih rest2.length (by simp at hn; omega) rest2 rfl _ _ _)
        · rw [decodeLoop_lit width b rest _ _ _ hc hb]
          exact lit b rest _ _ _ _ hc hb (ih rest.length (by simp at hn; omega) rest rfl _ _ _)
    · rw [decodeLoop_done width rest _ _ _ hc]
      exact done _ _ _ _ hc

theorem decodeLoop_err (width : Nat) (rest : List Nat) (consumed count : Nat)
    (scanline : Nat → Nat) :
    (decodeLoop width rest consumed count scanline).err =
      if count + (expandTokens rest).length < width then PCX_ERR_INVALID else PCX_ERR_NONE := by
  refine decodeLoop_cases width
    (fun rest _ count _ r => r.err =
      if count + (expandTokens rest).length < width then PCX_ERR_INVALID else PCX_ERR_NONE)
    ?_ ?_ ?_ ?_ ?_ rest.length rest rfl consumed count scanline
  · intro rest consumed count scanline hc
    rw [if_neg (by omega)]
  · intro consumed count scanline hc
    rw [if_pos (by simpa [expandTokens] using hc)]
  · intro b consumed count scanline hc hb
    rw [if_pos (by simpa [expandTokens_marker b hb] using hc)]
  · intro b v rest consumed count scanline r hc hb ih
    rw [ih, expandTokens_run b v rest hb]
    simp only [List.length_append, List.length_replicate, Nat.add_assoc]
  · intro b rest consumed count scanline r hc hb ih
    rw [ih, expandTokens_lit b rest hb]
    simp only [List.length_cons]
    have e : count + 1 + (expandTokens rest).length = count + ((expandTokens rest).length + 1) := by
      omega
    rw [e]

theorem decodeLoop_invalid_at_end (width : Nat) (rest : List Nat) (consumed count : Nat)
    (scanline : Nat → Nat) :
    (decodeLoop width rest consumed count scanline).err = PCX_ERR_INVALID →
      (decodeLoop width rest consumed count scanline).consumed = consumed + rest.length := by
  refine decodeLoop_cases width
    (fun rest consumed _ _ r => r.err = PCX_ERR_INVALID → r.consumed = consumed + rest.length)
    ?_ ?_ ?_ ?_ ?_ rest.length rest rfl consumed count scanline
  · intro rest consumed count scanline _ h
    exact absurd h (show ¬ PCX_ERR_NONE = PCX_ERR_INVALID by decide)
  · intro consumed count scanline _ _
    rfl
  · intro b consumed count scanline _ _ _
    rfl
  · intro b v rest consumed count scanline r _ _ ih h
    rw [ih h]; simp only [List.length_cons]; omega
  · intro b rest consumed count scanline r _ _ ih h
    rw [ih h]; simp only [List.length_cons]; omega

theorem decodeLoop_minimal (width : Nat) (rest : List Nat) (consumed count : Nat)
    (scanline : Nat → Nat) :
    ∀ j, consumed + j < (decodeLoop width rest consumed count scanline).consumed →
      count + (expandTokens (rest.take j)).length < width := by
  refine decodeLoop_cases width
    (fun rest consumed count _ r => ∀ j, consumed + j < r.consumed →
      count + (expandTokens (rest.take j)).length < width)
    ?_ ?_ ?_ ?_ ?_ rest.length rest rfl consumed count scanline
  · intro rest consumed count scanline _ j h
    simp only at h; omega
  · intro consumed count scanline _ j h
    simp only at h; omega
  · intro b consumed count scanline hc hb j h
    simp only at h
    have hj : j = 0 := by omega
    subst hj
    simpa [expandTokens] using hc
  · intro b v rest consumed count scanline r hc hb ih j h
    match j with
    | 0 => simpa [expandTokens] using hc
    | 1 => simpa [expandTokens_marker b hb] using hc
    | j + 2 =>
      have := ih j (by omega)
      rw [List.take_succ_cons, List.take_succ_cons, expandTokens_run b v _ hb]
      simp only [List.length_append, List.length_replicate]
      omega
  · intro b rest consumed count scanline r hc hb ih j h
    match j with
    | 0 => simpa [expandTokens] using hc
    | j + 1 =>
      have := ih j (by omega)
      rw [List.take_succ_cons, expandTokens_lit b _ hb]
      simp only [List.length_cons]
      omega

theorem decodeLoop_buffer (width : Nat) (rest : List Nat) (consumed count : Nat)
    (scanline scanline2 : Nat → Nat) :
    (decodeLoop width rest consumed count scanline).err =
      (decodeLoop width rest consumed count scanline2).err ∧
    (decodeLoop width rest consumed count scanline).consumed =
      (decodeLoop width rest consumed count scanline2).consumed := by
  refine decodeLoop_cases width
    (fun rest consumed count _ r => ∀ s2 : Nat → Nat,
      r.err = (decodeLoop width rest consumed count s2).err ∧
      r.consumed = (decodeLoop width rest consumed count s2).consumed)
    ?_ ?_ ?_ ?_ ?_ rest.length rest rfl consumed count scanline scanline2
  · intro rest consumed count scanline hc s2
    rw [decodeLoop_done width rest _ _ s2 hc]; exact ⟨rfl, rfl⟩
  · intro consumed count scanline hc s2
    rw [decodeLoop_eof width _ _ s2 hc]; exact ⟨rfl, rfl⟩
  · intro b consumed count scanline hc hb s2
    rw [decodeLoop_eof2 width b _ _ s2 hc hb]; exact ⟨rfl, rfl⟩
  · intro b v rest consumed count scanline r hc hb ih s2
    rw [decodeLoop_run width b v rest _ _ s2 hc hb]
    exact ih _
  · intro b rest consumed count scanline r hc hb ih s2
    rw [decodeLoop_lit width b rest _ _ s2 hc hb]
    exact ih _

/-! ### End of stream -/

theorem read_scanline_pos (data : PCXFile) (scanline : Nat → Nat)
    (h : (data.scanlines_read + 1) % 65536 ≤ data.height) :
    (pcx_read_scanline data scanline).2.1.file.pos =
      data.file.pos + (decodeLoop data.width (unread data.file) 0 0 scanline).consumed := by
  rw [pcx_read_scanline_run data scanline h]

/-- C16: for a handle with `scanlines_read < height`, `pcx_read_scanline`
returns `PCX_ERR_INVALID` exactly when the tokens left in the stream expand to
fewer than `width` pixels, so that the stream ends while a byte is expected;
the call has then read the stream to its end.  In every other case it returns
`PCX_ERR_NONE`. -/
theorem read_scanline_invalid_iff (data : PCXFile) (scanline : Nat → Nat)
    (h : data.scanlines_read < data.height) :
    ((pcx_read_scanline data scanline).1 = PCX_ERR_INVALID ↔
      (expandTokens (unread data.file)).length < data.width) ∧
    ((pcx_read_scanline data scanline).1 ≠ PCX_ERR_INVALID →
      (pcx_read_scanline data scanline).1 = PCX_ERR_NONE) ∧
    ((pcx_read_scanline data scanline).1 = PCX_ERR_INVALID →
      (pcx_read_scanline data scanline).2.1.file.pos =
        data.file.pos + (unread data.file).length) := by
  have hle := counter_step_le _ _ h
  have herr : (pcx_read_scanline data scanline).1 =
      (decodeLoop data.width (unread data.file) 0 0 scanline).err := by
    rw [pcx_read_scanline_run data scanline hle]
  rw [read_scanline_pos data scanline hle, herr, decodeLoop_err, Nat.zero_add]
  refine ⟨?_, ?_, ?_⟩
  · by_cases hlt : (expandTokens (unread data.file)).length < data.width
    · rw [if_pos hlt]; exact ⟨fun _ => hlt, fun _ => rfl⟩
    · rw [if_neg hlt]
      exact ⟨fun hc => absurd hc (by decide), fun hc => absurd hc hlt⟩
  · intro hne
    by_cases hlt : (expandTokens (unread data.file)).length < data.width
    · rw [if_pos hlt] at hne; exact absurd rfl hne
    · rw [if_neg hlt]
  · intro hinv
    have hinv2 : (decodeLoop data.width (unread data.file) 0 0 scanline).err =
        PCX_ERR_INVALID := by
      rw [decodeLoop_err, Nat.zero_add]; exact hinv
    rw [decodeLoop_invalid_at_end data.width (unread data.file) 0 0 scanline hinv2]
    simp

/-- The call at `exCutRun`, where the value byte of a run is missing
(`PCX_ERR_INVALID`), and at `exRun`, whose stream holds the whole scanline. -/
theorem read_scanline_invalid_iff_witness :
    exCutRun.scanlines_read < exCutRun.height ∧
    (expandTokens (unread exCutRun.file)).length < exCutRun.width ∧
    (pcx_read_scanline exCutRun zeroLine).1 = PCX_ERR_INVALID ∧
    (pcx_read_scanline exCutRun zeroLine).2.1.file.pos = 2 ∧
    exRun.scanlines_read < exRun.height ∧
    (pcx_read_scanline exRun zeroLine).1 ≠ PCX_ERR_INVALID ∧
    (pcx_read_scanline exRun zeroLine).1 = PCX_ERR_NONE :=
  ⟨by decide, by decide,
    (read_scanline_invalid_iff exCutRun zeroLine (by decide)).1.2 (by decide),
    ((read_scanline_invalid_iff exCutRun zeroLine (by decide)).2.2 (by decide)).trans
      (by decide),
    by decide, by decide,
    (read_scanline_invalid_iff exRun zeroLine (by decide)).2.1 (by decide)⟩

/-! ### Termination -/

theorem decodeLoop_iter (width : Nat) (rest : List Nat) (consumed count : Nat)
    (scanline : Nat → Nat) :
    decodeLoop width rest consumed count scanline =
      match loopIter width rest consumed count scanline with
      | Sum.inl r => r
      | Sum.inr s => decodeLoop width s.1 s.2.1 s.2.2.1 s.2.2.2 := by
  unfold loopIter
  by_cases hc : count < width
  · rw [if_pos hc]
    conv => lhs; unfold decodeLoop
    cases rest with
    | nil => simp only [if_pos hc]
    | cons b rest1 =>
      simp only [if_pos hc]
      by_cases hb : b &&& RLE_LEN_FLAG = RLE_LEN_FLAG
      · simp only [if_pos hb]
        cases rest1 with
        | nil => rfl
        | cons v rest2 => rfl
      · simp only [if_neg hb]
  · rw [if_neg hc, decodeLoop_done width rest _ _ _ hc]

theorem loopIter_progress (width : Nat) (rest : List Nat) (consumed count : Nat)
    (scanline : Nat → Nat) (s : List Nat × Nat × Nat × (Nat → Nat))
    (h : loopIter width rest consumed count scanline = Sum.inr s) :
    s.1.length < rest.length ∧ s.2.1 + s.1.length = consumed + rest.length := by
  unfold loopIter at h
  by_cases hc : count < width
  · rw [if_pos hc] at h
    cases rest with
    | nil => simp at h
    | cons b rest1 =>
      simp only at h
      by_cases hb : b &&& RLE_LEN_FLAG = RLE_LEN_FLAG
      · rw [if_pos hb] at h
        cases rest1 with
        | nil => simp at h
        | cons v rest2 =>
          simp only [Sum.inr.injEq] at h
          subst h
          simp only [List.length_cons]
          omega
      · rw [if_neg hb] at h
        simp only [Sum.inr.injEq] at h
        subst h
        simp only [List.length_cons]
        omega
  · rw [if_neg hc] at h
    simp at h

theorem decodeLoop_zeroRuns (width : Nat) (m v : Nat) (consumed count : Nat)
    (scanline : Nat → Nat) (hc : count < width) :
    decodeLoop width (zeroRuns m v) consumed count scanline =
      ⟨PCX_ERR_INVALID, consumed + 2 * m, count, scanline⟩ := by
  induction m generalizing consumed with
  | zero => rw [zeroRuns, decodeLoop_eof width _ _ _ hc]; rfl
  | succ m ih =>
    rw [zeroRuns, decodeLoop_run width 0xC0 v _ _ _ _ hc (by decide)]
    have e : (0xC0 &&& 0x3F : Nat) = 0 := by decide
    simp only [e, List.replicate, overlay_nil, Nat.add_zero]
    rw [ih]
    congr 1
    omega

theorem decodeLoop_consumed_le (width : Nat) (rest : List Nat) (consumed count : Nat)
    (scanline : Nat → Nat) :
    consumed ≤ (decodeLoop width rest consumed count scanline).consumed ∧
    (decodeLoop width rest consumed count scanline).consumed ≤ consumed + rest.length := by
  obtain ⟨k, hk⟩ := decodeLoop_exists width rest consumed count scanline
  rw [hk.consumed_eq]
  exact ⟨Nat.le_add_right _ _, Nat.add_le_add_left hk.le _⟩

/-- C20: `pcx_read_scanline` is a total function of the handle and the stream:
every call ends with `PCX_ERR_NONE`, `PCX_ERR_INVALID` or `PCX_ERR_USAGE` and
moves the cursor forward by at most the number of unread bytes.  The loop is
the repetition of its body, and each pass through the body either returns or
leaves strictly fewer unread bytes, having read what it removed.  On a stream
of run markers of length zero the call reads all of it, stores nothing and
returns `PCX_ERR_INVALID`. -/
theorem read_scanline_terminates (data : PCXFile) (scanline : Nat → Nat) :
    ((pcx_read_scanline data scanline).1 = PCX_ERR_NONE ∨
      (pcx_read_scanline data scanline).1 = PCX_ERR_INVALID ∨
      (pcx_read_scanline data scanline).1 = PCX_ERR_USAGE) ∧
    data.file.pos ≤ (pcx_read_scanline data scanline).2.1.file.pos ∧
    (pcx_read_scanline data scanline).2.1.file.pos ≤
      data.file.pos + (unread data.file).length ∧
    (∀ (rest : List Nat) (consumed count : Nat) (s : Nat → Nat),
      decodeLoop data.width rest consumed count s =
        match loopIter data.width rest consumed count s with
        | Sum.inl r => r
        | Sum.inr t => decodeLoop data.width t.1 t.2.1 t.2.2.1 t.2.2.2) ∧
    (∀ (rest : List Nat) (consumed count : Nat) (s : Nat → Nat)
      (t : List Nat × Nat × Nat × (Nat → Nat)),
      loopIter data.width rest consumed count s = Sum.inr t →
        t.1.length < rest.length ∧ t.2.1 + t.1.length = consumed + rest.length) ∧
    (∀ m v : Nat, (data.scanlines_read + 1) % 65536 ≤ data.height → 0 < data.width →
      unread data.file = zeroRuns m v →
        (pcx_read_scanline data scanline).1 = PCX_ERR_INVALID ∧
        (pcx_read_scanline data scanline).2.1.file.pos = data.file.pos + 2 * m ∧
        (pcx_read_scanline data scanline).2.2 = scanline) := by
  refine ⟨?_, ?_, ?_, decodeLoop_iter data.width, loopIter_progress data.width, ?_⟩
  · by_cases h : (data.scanlines_read + 1) % 65536 ≤ data.height
    · rcases read_scanline_code data scanline h with h1 | h1
      · exact Or.inl h1
      · exact Or.inr (Or.inl h1)
    · exact Or.inr (Or.inr ((read_scanline_usage_iff data scanline).2 (Nat.lt_of_not_le h)))
  · by_cases h : (data.scanlines_read + 1) % 65536 ≤ data.height
    · rw [read_scanline_pos data scanline h]
      omega
    · rw [pcx_read_scanline_usage data scanline (Nat.lt_of_not_le h)]
  · by_cases h : (data.scanlines_read + 1) % 65536 ≤ data.height
    · rw [read_scanline_pos data scanline h]
      have := (decodeLoop_consumed_le data.width (unread data.file) 0 0 scanline).2
      omega
    · rw [pcx_read_scanline_usage data scanline (Nat.lt_of_not_le h)]
      simp only
      omega
  · intro m v h hw hs
    rw [pcx_read_scanline_run data scanline h, hs, decodeLoop_zeroRuns data.width m v 0 0
      scanline hw]
    refine ⟨rfl, ?_, rfl⟩
    simp only
    omega

/-- The call on a stream of three run markers of length zero. -/
theorem read_scanline_terminates_witness :
    ((exZeroRuns.scanlines_read + 1) % 65536 ≤ exZeroRuns.height ∧ 0 < exZeroRuns.width ∧
      unread exZeroRuns.file = zeroRuns 3 9) ∧
    ((pcx_read_scanline exZeroRuns zeroLine).1 = PCX_ERR_INVALID ∧
      (pcx_read_scanline exZeroRuns zeroLine).2.1.file.pos = exZeroRuns.file.pos + 2 * 3 ∧
      (pcx_read_scanline exZeroRuns zeroLine).2.2 = zeroLine) ∧
    loopIter 1 (zeroRuns 3 9) 0 0 zeroLine = Sum.inr (zeroRuns 2 9, 2, 0, zeroLine) ∧
    ((zeroRuns 2 9).length < (zeroRuns 3 9).length ∧
      2 + (zeroRuns 2 9).length = 0 + (zeroRuns 3 9).length) :=
  ⟨⟨by decide, by decide, by decide⟩,
    (read_scanline_terminates exZeroRuns zeroLine).2.2.2.2.2 3 9 (by decide) (by decide)
      (by decide),
    rfl,
    (read_scanline_terminates exZeroRuns zeroLine).2.2.2.2.1 (zeroRuns 3 9) 0 0 zeroLine
      (zeroRuns 2 9, 2, 0, zeroLine) rfl⟩

/-! ### Scanlines decode independently -/

theorem unread_advance (f : FILE) (k : Nat) (hk : k ≤ (unread f).length) :
    unread { f with pos := f.pos + k } = (unread f).drop k := by
  simp only [unread] at hk ⊢
  by_cases hp : f.pos < 0
  · rw [if_pos hp] at hk ⊢
    simp only [List.length_nil, Nat.le_zero] at hk
    subst hk
    simp [hp]
  · rw [if_neg hp] at hk ⊢
    rw [if_neg (by omega), List.drop_drop]
    congr 1
    omega

theorem overlay_agree (s1 s2 : Nat → Nat) (xs : List Nat) (width : Nat)
    (h : ∀ i, i < width → s1 i = s2 i) :
    ∀ i, i < width → overlay s1 0 xs i = overlay s2 0 xs i := by
  intro i hi
  simp only [overlay]
  split
  · rfl
  · exact h i hi

theorem read_scanline_buffer (data : PCXFile) (s1 s2 : Nat → Nat)
    (h : ∀ i, i < data.width → s1 i = s2 i) :
    (pcx_read_scanline data s1).1 = (pcx_read_scanline data s2).1 ∧
    (pcx_read_scanline data s1).2.1 = (pcx_read_scanline data s2).2.1 ∧
    ∀ i, i < data.width → (pcx_read_scanline data s1).2.2 i = (pcx_read_scanline data s2).2.2 i := by
  by_cases hle : (data.scanlines_read + 1) % 65536 ≤ data.height
  · rw [pcx_read_scanline_run data s1 hle, pcx_read_scanline_run data s2 hle]
    obtain ⟨e1, e2⟩ := decodeLoop_buffer data.width (unread data.file) 0 0 s1 s2
    obtain ⟨k1, hk1⟩ := decodeLoop_exists data.width (unread data.file) 0 0 s1
    obtain ⟨k2, hk2⟩ := decodeLoop_exists data.width (unread data.file) 0 0 s2
    have hk : k1 = k2 := by
      have a := hk1.consumed_eq
      have b := hk2.consumed_eq
      omega
    subst hk
    refine ⟨e1, by simp only [e2], ?_⟩
    simp only [hk1.scanline_eq, hk2.scanline_eq]
    exact overlay_agree s1 s2 _ _ h
  · rw [pcx_read_scanline_usage data s1 (Nat.lt_of_not_le hle),
      pcx_read_scanline_usage data s2 (Nat.lt_of_not_le hle)]
    exact ⟨rfl, rfl, h⟩

/-- C18: a `pcx_read_scanline` call that returns `PCX_ERR_NONE` on a handle
with `scanlines_read < height` moves the cursor forward by `k` bytes, where the
first `k` unread bytes are the shortest run of the stream whose expansion
reaches `width` bytes; the handle keeps nothing else of the call but the
counter.  The next call starts its loop at the byte after these `k` with an
empty scanline, and what it returns and stores in `scanline[0..width)` is the
same for any two buffers that agree on `scanline[0..width)`. -/
theorem read_scanline_independent (data : PCXFile) (scanline : Nat → Nat)
    (h : data.scanlines_read < data.height)
    (hok : (pcx_read_scanline data scanline).1 = PCX_ERR_NONE) :
    ∃ k : Nat,
      k ≤ (unread data.file).length ∧
      (pcx_read_scanline data scanline).2.1 =
        { data with
          scanlines_read := (data.scanlines_read + 1) % 65536
          file := ⟨data.file.bytes, data.file.pos + k⟩ } ∧
      data.width ≤ (expandTokens ((unread data.file).take k)).length ∧
      (∀ j, j < k → (expandTokens ((unread data.file).take j)).length < data.width) ∧
      unread (pcx_read_scanline data scanline).2.1.file = (unread data.file).drop k ∧
      (data.scanlines_read + 1 < data.height → ∀ s : Nat → Nat,
        (pcx_read_scanline (pcx_read_scanline data scanline).2.1 s).1 =
          (decodeLoop data.width ((unread data.file).drop k) 0 0 s).err ∧
        (pcx_read_scanline (pcx_read_scanline data scanline).2.1 s).2.2 =
          (decodeLoop data.width ((unread data.file).drop k) 0 0 s).scanline) ∧
      (∀ s1 s2 : Nat → Nat, (∀ i, i < data.width → s1 i = s2 i) →
        (pcx_read_scanline (pcx_read_scanline data scanline).2.1 s1).1 =
          (pcx_read_scanline (pcx_read_scanline data scanline).2.1 s2).1 ∧
        (pcx_read_scanline (pcx_read_scanline data scanline).2.1 s1).2.1 =
          (pcx_read_scanline (pcx_read_scanline data scanline).2.1 s2).2.1 ∧
        ∀ i, i < data.width →
          (pcx_read_scanline (pcx_read_scanline data scanline).2.1 s1).2.2 i =
            (pcx_read_scanline (pcx_read_scanline data scanline).2.1 s2).2.2 i) := by
  have hle := counter_step_le _ _ h
  obtain ⟨k, hk⟩ := decodeLoop_exists data.width (unread data.file) 0 0 scanline
  have hc := hk.consumed_eq
  rw [Nat.zero_add] at hc
  have hmin := decodeLoop_minimal data.width (unread data.file) 0 0 scanline
  have hrun := pcx_read_scanline_run data scanline hle
  rw [hrun] at hok
  have hfull := hk.full hok
  rw [hk.count_eq, Nat.zero_add] at hfull
  have hafter : (pcx_read_scanline data scanline).2.1 =
      { data with
        scanlines_read := (data.scanlines_read + 1) % 65536
        file := ⟨data.file.bytes, data.file.pos + k⟩ } := by
    rw [hrun, hc]
  have hunread : unread (pcx_read_scanline data scanline).2.1.file =
      (unread data.file).drop k := by
    rw [hafter]
    exact unread_advance data.file k hk.le
  refine ⟨k, hk.le, hafter, hfull, ?_, hunread, ?_, ?_⟩
  · intro j hj
    have := hmin j (by rw [hc]; omega)
    omega
  · intro hnext s
    have hle2 : ((pcx_read_scanline data scanline).2.1.scanlines_read + 1) % 65536 ≤
        (pcx_read_scanline data scanline).2.1.height := by
      rw [hafter]
      simp only
      have a := Nat.mod_le (data.scanlines_read + 1) 65536
      have b := Nat.mod_le ((data.scanlines_read + 1) % 65536 + 1) 65536
      omega
    rw [pcx_read_scanline_run _ s hle2, hunread]
    have hw : (pcx_read_scanline data scanline).2.1.width = data.width := by rw [hafter]
    rw [hw]
    exact ⟨rfl, rfl⟩
  · intro s1 s2 hs
    have hw : (pcx_read_scanline data scanline).2.1.width = data.width := by rw [hafter]
    have := read_scanline_buffer (pcx_read_scanline data scanline).2.1 s1 s2
      (by rw [hw]; exact hs)
    rw [hw] at this
    exact this

/-- The two calls at `exLongRun`: the first reads the two bytes of a run of three
for a scanline of two, the second starts at the next token. -/
theorem read_scanline_independent_witness :
    exLongRun.scanlines_read < exLongRun.height ∧
    (pcx_read_scanline exLongRun zeroLine).1 = PCX_ERR_NONE ∧
    (∃ k : Nat, k ≤ (unread exLongRun.file).length ∧
      (pcx_read_scanline exLongRun zeroLine).2.1.file.pos = exLongRun.file.pos + k ∧
      unread (pcx_read_scanline exLongRun zeroLine).2.1.file = (unread exLongRun.file).drop k) ∧
    (pcx_read_scanline exLongRun zeroLine).2.1.file.pos = 2 ∧
    (pcx_read_scanline exLongRun zeroLine).2.2 2 = 7 ∧
    (pcx_read_scanline (pcx_read_scanline exLongRun zeroLine).2.1
      (pcx_read_scanline exLongRun zeroLine).2.2).1 = PCX_ERR_NONE ∧
    (List.range 2).map (pcx_read_scanline (pcx_read_scanline exLongRun zeroLine).2.1
      (pcx_read_scanline exLongRun zeroLine).2.2).2.2 = [8, 8] ∧
    (pcx_read_scanline (pcx_read_scanline exLongRun zeroLine).2.1
      (pcx_read_scanline exLongRun zeroLine).2.2).1 =
      (pcx_read_scanline (pcx_read_scanline exLongRun zeroLine).2.1 zeroLine).1 :=
  ⟨by decide, by decide,
    (read_scanline_independent exLongRun zeroLine (by decide) (by decide)).imp
      (fun _ hk => ⟨hk.1, by rw [hk.2.1], hk.2.2.2.2.1⟩),
    by decide, by decide, by decide, by decide, by decide⟩

/-! ### The size query after scanline reads -/

theorem scan_calls_counter (bufs : List (Nat → Nat)) : ∀ data : PCXFile,
    data.scanlines_read < 65536 →
    (scan_calls bufs data).scanlines_read = (data.scanlines_read + bufs.length) % 65536 ∧
    (scan_calls bufs data).height = data.height := by
  induction bufs with
  | nil =>
    intro data h
    simp [scan_calls, Nat.mod_eq_of_lt h]
  | cons s ss ih =>
    intro data h
    obtain ⟨h1, h2, -, -, -⟩ := read_scanline_fields data s
    obtain ⟨i1, i2⟩ := ih (pcx_read_scanline data s).2.1
      (by rw [h1]; exact Nat.mod_lt _ (by decide))
    rw [scan_calls, i1, i2, h1, h2]
    refine ⟨?_, rfl⟩
    simp only [List.length_cons]
    omega

set_option maxRecDepth 100000 in
/-- C17, as stated, fails: on the handle of a 1 x 1 image without pixel data the
only scanline read returns `PCX_ERR_INVALID`, no scanline has been decoded, and
`pcx_get_palette_size` returns the size 16 instead of `PCX_ERR_USAGE`. -/
theorem palette_size_after_failed_scanline :
    (pcx_open_file (some exFileNoData) blankHandle).1 = PCX_ERR_NONE ∧
    (pcx_open_file (some exFileNoData) blankHandle).2.height = 1 ∧
    (pcx_read_scanline (pcx_open_file (some exFileNoData) blankHandle).2 zeroLine).1 =
      PCX_ERR_INVALID ∧
    (pcx_get_palette_size exFailedScan 0).1 = 16 ∧
    (pcx_get_palette_size exFailedScan 0).1 ≠ PCX_ERR_USAGE := by
  refine ⟨by decide, by decide, by decide, by decide, by decide⟩

/-- C17, amended: on a handle produced by `pcx_open_file`, after any sequence
of `n < 65536` calls of `pcx_read_scanline`, whatever they returned,
`pcx_get_palette_size` returns a palette size (16 or 256) if `n = height` and
`PCX_ERR_USAGE` if `n` differs from `height`. -/
theorem palette_size_after_calls (contents : Option (List Nat)) (data : PCXFile)
    (bufs : List (Nat → Nat)) (byte : Nat) (hn : bufs.length < 65536) :
    (bufs.length = (pcx_open_file contents data).2.height →
      (pcx_get_palette_size (scan_calls bufs (pcx_open_file contents data).2) byte).1 = 16 ∨
      (pcx_get_palette_size (scan_calls bufs (pcx_open_file contents data).2) byte).1 = 256) ∧
    (bufs.length ≠ (pcx_open_file contents data).2.height →
      (pcx_get_palette_size (scan_calls bufs (pcx_open_file contents data).2) byte).1 =
        PCX_ERR_USAGE) := by
  have h0 := (open_file_resets contents data).1
  obtain ⟨c1, c2⟩ := scan_calls_counter bufs (pcx_open_file contents data).2
    (by rw [h0]; decide)
  rw [h0, Nat.zero_add, Nat.mod_eq_of_lt hn] at c1
  constructor
  · intro heq
    exact (get_palette_size_resolved _ byte (by rw [c1, c2]; exact heq)).1
  · intro hne
    exact (get_palette_size_usage_iff _ byte).2 (by rw [c1, c2]; exact hne)

set_option maxRecDepth 100000 in
/-- The size query on the handle of `exFile2` (height 2) after two calls and
after three calls. -/
theorem palette_size_after_calls_witness :
    ([zeroLine, zeroLine].length < 65536 ∧ [zeroLine, zeroLine, zeroLine].length < 65536) ∧
    [zeroLine, zeroLine].length = (pcx_open_file (some exFile2) blankHandle).2.height ∧
    ((pcx_get_palette_size (scan_calls [zeroLine, zeroLine]
        (pcx_open_file (some exFile2) blankHandle).2) 0).1 = 16 ∨
      (pcx_get_palette_size (scan_calls [zeroLine, zeroLine]
        (pcx_open_file (some exFile2) blankHandle).2) 0).1 = 256) ∧
    [zeroLine, zeroLine, zeroLine].length ≠ (pcx_open_file (some exFile2) blankHandle).2.height ∧
    (pcx_get_palette_size (scan_calls [zeroLine, zeroLine, zeroLine]
      (pcx_open_file (some exFile2) blankHandle).2) 0).1 = PCX_ERR_USAGE :=
  ⟨⟨by decide, by decide⟩, by decide,
    (palette_size_after_calls (some exFile2) blankHandle [zeroLine, zeroLine] 0
      (by decide)).1 (by decide),
    by decide,
    (palette_size_after_calls (some exFile2) blankHandle [zeroLine, zeroLine, zeroLine] 0
      (by decide)).2 (by decide)⟩

/-! ### Round trip -/

set_option maxRecDepth 100000 in
theorem marker_bits : ∀ n, n < 64 → (0xC0 + n) &&& 0xC0 = 0xC0 ∧ (0xC0 + n) &&& 0x3F = n := by
  decide

set_option maxRecDepth 100000 in
theorem literal_bits : ∀ v, v < 0xC0 → ¬ v &&& 0xC0 = 0xC0 := by
  decide

theorem pixelToken_ok (v : Nat) : (pixelToken v).ok ∧ (pixelToken v).pixels = [v] := by
  unfold pixelToken
  split
  · exact ⟨‹v < 0xC0›, rfl⟩
  · exact ⟨⟨Nat.le_refl _, by decide⟩, rfl⟩

theorem rleRow_spec (row : List Nat) :
    (∀ t, t ∈ rleRow row → t.ok) ∧ rowPixels (rleRow row) = row := by
  induction row with
  | nil => simp [rleRow, rowPixels]
  | cons v rest ih =>
    obtain ⟨ih1, ih2⟩ := ih
    obtain ⟨p1, p2⟩ := pixelToken_ok v
    unfold rleRow
    cases hr : rleRow rest with
    | nil =>
      rw [hr] at ih2
      simp only [rowPixels] at ih2
      subst ih2
      simp only [List.mem_singleton, forall_eq, rowPixels, p2, List.append_nil]
      exact ⟨p1, trivial⟩
    | cons t ts =>
      rw [hr] at ih1 ih2
      cases t with
      | lit w =>
        simp only
        split
        · rename_i hw
          subst hw
          refine ⟨?_, ?_⟩
          · intro t ht
            rcases List.mem_cons.1 ht with h | h
            · subst h; exact ⟨by decide, by decide⟩
            · exact ih1 t (List.mem_cons_of_mem _ h)
          · rw [← ih2]; simp [rowPixels, Token.pixels, List.replicate]
        · refine ⟨?_, ?_⟩
          · intro t ht
            rcases List.mem_cons.1 ht with h | h
            · subst h; exact p1
            · exact ih1 t h
          · rw [← ih2]; simp [rowPixels, p2]
      | run n w =>
        simp only
        have hn := ih1 (Token.run n w) (List.mem_cons_self _ _)
        split
        · rename_i hw
          obtain ⟨hw1, hw2⟩ := hw
          subst hw1
          refine ⟨?_, ?_⟩
          · intro t ht
            rcases List.mem_cons.1 ht with h | h
            · subst h; exact ⟨by omega, by omega⟩
            · exact ih1 t (List.mem_cons_of_mem _ h)
          · rw [← ih2]; simp [rowPixels, Token.pixels, List.replicate_succ]
        · refine ⟨?_, ?_⟩
          · intro t ht
            rcases List.mem_cons.1 ht with h | h
            · subst h; exact p1
            · exact ih1 t h
          · rw [← ih2]; simp [rowPixels, p2]

theorem token_pixels_pos (t : Token) (h : t.ok) : 1 ≤ t.pixels.length := by
  cases t with
  | lit v => simp [Token.pixels]
  | run n v => simpa [Token.pixels] using h.1

theorem decodeLoop_row (width : Nat) (toks : List Token) (hok : ∀ t, t ∈ toks → t.ok) :
    ∀ (rest : List Nat) (consumed count : Nat) (scanline : Nat → Nat),
      count + (rowPixels toks).length = width →
      decodeLoop width (rowBytes toks ++ rest) consumed count scanline =
        ⟨PCX_ERR_NONE, consumed + (rowBytes toks).length, width,
          overlay scanline count (rowPixels toks)⟩ := by
  induction toks with
  | nil =>
    intro rest consumed count scanline hlen
    simp only [rowPixels, List.length_nil, Nat.add_zero] at hlen
    subst hlen
    rw [rowBytes, List.nil_append, decodeLoop_done _ _ _ _ _ (Nat.lt_irrefl _)]
    simp [rowPixels, overlay_nil]
  | cons t ts ih =>
    intro rest consumed count scanline hlen
    have hts : ∀ t, t ∈ ts → t.ok := fun t ht => hok t (List.mem_cons_of_mem _ ht)
    have ht := hok t (List.mem_cons_self _ _)
    have hpos := token_pixels_pos t ht
    simp only [rowPixels, List.length_append] at hlen
    have hc : count < width := by omega
    cases t with
    | lit v =>
      simp only [Token.pixels, List.length_singleton] at hlen
      have hb := literal_bits v ht
      rw [rowBytes, Token.bytes, List.append_assoc, List.singleton_append,
        decodeLoop_lit width v _ _ _ _ hc hb, ih hts _ _ _ _ (by omega)]
      have e := overlay_append scanline count [v] (rowPixels ts)
      simp only [List.length_singleton] at e
      rw [e]
      simp only [rowPixels, Token.pixels, List.length_append, List.length_singleton]
      congr 1
      omega
    | run n v =>
      simp only [Token.pixels, List.length_replicate] at hlen
      obtain ⟨hb1, hb2⟩ := marker_bits n (by have := ht.2; omega)
      rw [rowBytes, Token.bytes, List.append_assoc]
      simp only [List.cons_append, List.nil_append]
      rw [decodeLoop_run width (0xC0 + n) v _ _ _ _ hc hb1, hb2, ih hts _ _ _ _ (by omega)]
      have e := overlay_append scanline count (List.replicate n v) (rowPixels ts)
      simp only [List.length_replicate] at e
      rw [e]
      simp only [rowPixels, Token.pixels, List.length_append, List.length_cons,
        List.length_nil]
      congr 1
      omega

theorem map_overlay_exact (mem : Nat → Nat) (xs : List Nat) :
    (List.range xs.length).map (overlay mem 0 xs) = xs := by
  rw [map_overlay_range mem xs xs.length (Nat.le_refl _), List.take_length]

theorem read_rows_image (width : Nat) (trailer : List Nat) :
    ∀ (rows : List (List Token)) (data : PCXFile) (scanline : Nat → Nat),
      data.width = width →
      (∀ r, r ∈ rows → (∀ t, t ∈ r → t.ok) ∧ (rowPixels r).length = width) →
      unread data.file = imageBytes rows ++ trailer →
      data.scanlines_read + rows.length ≤ data.height → data.height ≤ 65535 →
      (read_rows rows.length data scanline).1 =
        rows.map (fun r => (PCX_ERR_NONE, rowPixels r)) ∧
      (read_rows rows.length data scanline).2.1 =
        { data with
          scanlines_read := data.scanlines_read + rows.length
          file := ⟨data.file.bytes, data.file.pos + (imageBytes rows).length⟩ } := by
  intro rows
  induction rows with
  | nil =>
    intro data scanline _ _ _ _ _
    simp [read_rows, imageBytes]
  | cons r rs ih =>
    intro data scanline hw hrows hun hsr hh
    subst hw
    obtain ⟨hrok, hrlen⟩ := hrows r (List.mem_cons_self _ _)
    have hrs : ∀ r, r ∈ rs → (∀ t, t ∈ r → t.ok) ∧ (rowPixels r).length = data.width :=
      fun r hr => hrows r (List.mem_cons_of_mem _ hr)
    simp only [List.length_cons] at hsr
    have hmod : (data.scanlines_read + 1) % 65536 = data.scanlines_read + 1 :=
      Nat.mod_eq_of_lt (by omega)
    have hcall := pcx_read_scanline_run data scanline (by rw [hmod]; omega)
    rw [hun, imageBytes, List.append_assoc,
      decodeLoop_row data.width r hrok _ 0 0 scanline (by omega), hmod] at hcall
    simp only [Nat.zero_add] at hcall
    have hcall2 : pcx_read_scanline data scanline =
        (PCX_ERR_NONE,
          (⟨⟨data.file.bytes, data.file.pos + ((rowBytes r).length : Nat)⟩, data.width,
            data.height, data.scanlines_read + 1, data.palette_size, data.version⟩ : PCXFile),
          overlay scanline 0 (rowPixels r)) := by
      rw [hcall]
    have hdrop : unread (⟨data.file.bytes, data.file.pos + ((rowBytes r).length : Nat)⟩ : FILE) =
        imageBytes rs ++ trailer := by
      have := unread_advance data.file (rowBytes r).length
        (by rw [hun, imageBytes]; simp only [List.length_append]; omega)
      rw [this, hun, imageBytes, List.append_assoc, List.drop_left]
    obtain ⟨i1, i2⟩ := ih
      (⟨⟨data.file.bytes, data.file.pos + ((rowBytes r).length : Nat)⟩, data.width,
        data.height, data.scanlines_read + 1, data.palette_size, data.version⟩ : PCXFile)
      (overlay scanline 0 (rowPixels r)) rfl hrs hdrop (by simp only; omega) hh
    simp only [List.length_cons, read_rows, hcall2, List.map_cons]
    rw [i1, i2]
    refine ⟨?_, ?_⟩
    · rw [← hrlen, map_overlay_exact]
    · simp only [imageBytes, List.length_append, Nat.cast_add]
      congr 1
      · congr 1
        omega
      · omega

theorem pcxHeader_length (version width height : Nat) (colorMap : List Nat)
    (hcm : colorMap.length = 48) : (pcxHeader version width height colorMap).length = 128 := by
  simp [pcxHeader, hcm]

theorem pcxFile_split (version width : Nat) (colorMap : List Nat) (rows : List (List Token))
    (trailer : List Nat) :
    pcxFile version width colorMap rows trailer =
      [10, version, 1, 8, 0, 0, 0, 0, (width - 1) % 256, (width - 1) / 256,
        (rows.length - 1) % 256, (rows.length - 1) / 256, 0, 0, 0, 0] ++
      (colorMap ++ ([0, 1] ++ (List.replicate 62 0 ++ (imageBytes rows ++ trailer)))) := by
  simp [pcxFile, pcxHeader]

theorem pcxFile_low (version width : Nat) (colorMap : List Nat) (rows : List (List Token))
    (trailer : List Nat) (i : Nat) (hi : i < 16) :
    (pcxFile version width colorMap rows trailer).getD i 0 =
      [10, version, 1, 8, 0, 0, 0, 0, (width - 1) % 256, (width - 1) / 256,
        (rows.length - 1) % 256, (rows.length - 1) / 256, 0, 0, 0, 0].getD i 0 := by
  rw [pcxFile_split, List.getD_append _ _ _ _ (by simpa using hi)]

theorem pcxFile_colorMap (version width : Nat) (colorMap : List Nat)
    (rows : List (List Token)) (trailer : List Nat) (hcm : colorMap.length = 48) (j : Nat)
    (hj : j < 48) :
    (pcxFile version width colorMap rows trailer).getD (16 + j) 0 = colorMap.getD j 0 := by
  rw [pcxFile_split, List.getD_append_right _ _ _ _ (by simp),
    List.getD_append _ _ _ _ (by simp; omega)]
  simp

theorem pcxFile_planes (version width : Nat) (colorMap : List Nat)
    (rows : List (List Token)) (trailer : List Nat) (hcm : colorMap.length = 48) :
    (pcxFile version width colorMap rows trailer).getD 65 0 = 1 := by
  rw [pcxFile_split, List.getD_append_right _ _ _ _ (by simp),
    List.getD_append_right _ _ _ _ (by simp; omega),
    List.getD_append _ _ _ _ (by simp; omega)]
  simp [hcm]

theorem pcxFile_length (version width : Nat) (colorMap : List Nat)
    (rows : List (List Token)) (trailer : List Nat) (hcm : colorMap.length = 48) :
    (pcxFile version width colorMap rows trailer).length =
      128 + (imageBytes rows).length + trailer.length := by
  simp only [pcxFile, List.length_append, pcxHeader_length _ _ _ _ hcm]

theorem pcxFile_trailer (version width : Nat) (colorMap : List Nat)
    (rows : List (List Token)) (trailer : List Nat) (hcm : colorMap.length = 48) (j : Nat) :
    (pcxFile version width colorMap rows trailer).getD (128 + (imageBytes rows).length + j) 0 =
      trailer.getD j 0 := by
  rw [pcxFile, List.getD_append_right _ _ _ _
    (by simp [pcxHeader_length _ _ _ _ hcm])]
  simp [pcxHeader_length _ _ _ _ hcm]

theorem pcxFile_open (version width : Nat) (colorMap : List Nat) (rows : List (List Token))
    (trailer : List Nat) (data : PCXFile) (hcm : colorMap.length = 48)
    (hw1 : 1 ≤ width) (hw2 : width ≤ 65535) (hh1 : 1 ≤ rows.length)
    (hh2 : rows.length ≤ 65535) :
    pcx_open_file (some (pcxFile version width colorMap rows trailer)) data =
      (PCX_ERR_NONE,
        (⟨⟨pcxFile version width colorMap rows trailer, 128⟩, width, rows.length, 0, 0,
          version⟩ : PCXFile)) := by
  have hlen := pcxFile_length version width colorMap rows trailer hcm
  have low := pcxFile_low version width colorMap rows trailer
  have h0 := low 0 (by decide)
  have h1 := low 1 (by decide)
  have h3 := low 3 (by decide)
  have h4 := low 4 (by decide)
  have h5 := low 5 (by decide)
  have h6 := low 6 (by decide)
  have h7 := low 7 (by decide)
  have h8 := low 8 (by decide)
  have h9 := low 9 (by decide)
  have h10 := low 10 (by decide)
  have h11 := low 11 (by decide)
  simp only [List.getD_cons_zero, List.getD_cons_succ] at h0 h1 h3 h4 h5 h6 h7 h8 h9 h10 h11
  rw [open_file_valid _ data (by rw [hlen]; simp only [sizeof_PCXFileHeader]; omega) h0 h3
    (pcxFile_planes version width colorMap rows trailer hcm)]
  have wx : word16 (pcxFile version width colorMap rows trailer) 8 = width - 1 := by
    simp only [word16, h8, h9]; exact Nat.mod_add_div _ _
  have wy : word16 (pcxFile version width colorMap rows trailer) 10 = rows.length - 1 := by
    simp only [word16, h10, h11]; exact Nat.mod_add_div _ _
  have wx0 : word16 (pcxFile version width colorMap rows trailer) 4 = 0 := by
    simp only [word16, h4, h5]
  have wy0 : word16 (pcxFile version width colorMap rows trailer) 6 = 0 := by
    simp only [word16, h6, h7]
  rw [wx, wy, wx0, wy0, h1, extent_le _ _ (Nat.zero_le _), extent_le _ _ (Nat.zero_le _)]
  have e1 : (width - 1 - 0 + 1) % 65536 = width := by omega
  have e2 : (rows.length - 1 - 0 + 1) % 65536 = rows.length := by omega
  rw [e1, e2]

theorem pcxFile_unread (version width : Nat) (colorMap : List Nat) (rows : List (List Token))
    (trailer : List Nat) (hcm : colorMap.length = 48) :
    unread ⟨pcxFile version width colorMap rows trailer, 128⟩ = imageBytes rows ++ trailer := by
  have hl := pcxHeader_length version width rows.length colorMap hcm
  simp only [unread, pcxFile]
  rw [if_neg (by decide), List.append_assoc]
  have e : (128 : Int).toNat = (pcxHeader version width rows.length colorMap).length := by
    rw [hl]; rfl
  rw [e, List.drop_left]

theorem pcxFile_scanned (version width : Nat) (colorMap : List Nat) (rows : List (List Token))
    (trailer : List Nat) (data : PCXFile) (scanline : Nat → Nat) (hcm : colorMap.length = 48)
    (hw1 : 1 ≤ width) (hw2 : width ≤ 65535) (hh1 : 1 ≤ rows.length)
    (hh2 : rows.length ≤ 65535)
    (hrows : ∀ r, r ∈ rows → (∀ t, t ∈ r → t.ok) ∧ (rowPixels r).length = width) :
    (read_rows rows.length
      (pcx_open_file (some (pcxFile version width colorMap rows trailer)) data).2 scanline).1 =
      rows.map (fun r => (PCX_ERR_NONE, rowPixels r)) ∧
    (read_rows rows.length
      (pcx_open_file (some (pcxFile version width colorMap rows trailer)) data).2 scanline).2.1 =
      (⟨⟨pcxFile version width colorMap rows trailer,
          128 + ((imageBytes rows).length : Nat)⟩, width, rows.length, rows.length, 0,
        version⟩ : PCXFile) := by
  rw [pcxFile_open version width colorMap rows trailer data hcm hw1 hw2 hh1 hh2]
  obtain ⟨a, b⟩ := read_rows_image width trailer rows
    (⟨⟨pcxFile version width colorMap rows trailer, 128⟩, width, rows.length, 0, 0,
      version⟩ : PCXFile) scanline rfl hrows
    (pcxFile_unread version width colorMap rows trailer hcm) (by simp) hh2
  refine ⟨a, ?_⟩
  rw [b]
  simp

theorem fread_byte_bytes (f : FILE) : (fread_byte f).2.bytes = f.bytes := by
  simp only [fread_byte]
  split <;> rfl

theorem fseek_end_bytes (f : FILE) (offset : Int) : (fseek_end f offset).bytes = f.bytes := by
  simp only [fseek_end]
  split <;> rfl

theorem get_palette_size_bytes (file : PCXFile) (byte : Nat) :
    (pcx_get_palette_size file byte).2.file.bytes = file.file.bytes := by
  simp only [pcx_get_palette_size]
  split
  · rfl
  · split
    · rfl
    · split
      · exact fseek_end_bytes _ _
      · split <;> exact (fread_byte_bytes _).trans (fseek_end_bytes _ _)

theorem pcxFile_palette16 (version width : Nat) (colorMap : List Nat)
    (rows : List (List Token)) (pos : Int) (height sr : Nat) (byte : Nat)
    (pal : Nat → PCXPaletteEntry) (palette_buf : Nat → Nat) (hcm : colorMap.length = 48)
    (hv : version ≠ 5) :
    (pcx_get_palette_size
      (⟨⟨pcxFile version width colorMap rows [], pos⟩, width, height, height, sr,
        version⟩ : PCXFile) byte).1 = 16 ∧
    (pcx_read_palette (pcx_get_palette_size
      (⟨⟨pcxFile version width colorMap rows [], pos⟩, width, height, height, sr,
        version⟩ : PCXFile) byte).2 pal palette_buf).1 = PCX_ERR_NONE ∧
    ∀ i, i < 16 →
      (pcx_read_palette (pcx_get_palette_size
        (⟨⟨pcxFile version width colorMap rows [], pos⟩, width, height, height, sr,
          version⟩ : PCXFile) byte).2 pal palette_buf).2.2 i =
        ⟨colorMap.getD (3 * i) 0, colorMap.getD (3 * i + 1) 0, colorMap.getD (3 * i + 2) 0⟩ := by
  have hlen := pcxFile_length version width colorMap rows [] hcm
  rw [get_palette_size_legacy _ byte hv rfl]
  rw [read_palette_16 _ pal palette_buf rfl
    (show 64 ≤ (pcxFile version width colorMap rows []).length by omega)]
  refine ⟨rfl, rfl, ?_⟩
  intro i hi
  simp only [paletteAt]
  rw [if_pos hi, Nat.add_assoc, Nat.add_assoc,
    pcxFile_colorMap version width colorMap rows [] hcm (3 * i) (by omega),
    pcxFile_colorMap version width colorMap rows [] hcm (3 * i + 1) (by omega),
    pcxFile_colorMap version width colorMap rows [] hcm (3 * i + 2) (by omega)]

theorem pcxFile_palette256 (width : Nat) (colorMap palette : List Nat)
    (rows : List (List Token)) (height sr : Nat) (byte : Nat)
    (pal : Nat → PCXPaletteEntry) (palette_buf : Nat → Nat) (hcm : colorMap.length = 48)
    (hpal : palette.length = 768) :
    (pcx_get_palette_size
      (⟨⟨pcxFile 5 width colorMap rows (0x0C :: palette),
          128 + ((imageBytes rows).length : Nat)⟩, width, height, height, sr, 5⟩ : PCXFile)
        byte).1 = 256 ∧
    (pcx_read_palette (pcx_get_palette_size
      (⟨⟨pcxFile 5 width colorMap rows (0x0C :: palette),
          128 + ((imageBytes rows).length : Nat)⟩, width, height, height, sr, 5⟩ : PCXFile)
        byte).2 pal palette_buf).1 = PCX_ERR_NONE ∧
    ∀ i, i < 256 →
      (pcx_read_palette (pcx_get_palette_size
        (⟨⟨pcxFile 5 width colorMap rows (0x0C :: palette),
            128 + ((imageBytes rows).length : Nat)⟩, width, height, height, sr, 5⟩ : PCXFile)
          byte).2 pal palette_buf).2.2 i =
        ⟨palette.getD (3 * i) 0, palette.getD (3 * i + 1) 0, palette.getD (3 * i + 2) 0⟩ := by
  have hlen := pcxFile_length 5 width colorMap rows (0x0C :: palette) hcm
  simp only [List.length_cons, hpal] at hlen
  have hflag := pcxFile_trailer 5 width colorMap rows (0x0C :: palette) hcm 0
  simp only [Nat.add_zero, List.getD_cons_zero] at hflag
  have hsize : (pcx_get_palette_size
      (⟨⟨pcxFile 5 width colorMap rows (0x0C :: palette),
          128 + ((imageBytes rows).length : Nat)⟩, width, height, height, sr, 5⟩ : PCXFile)
        byte).1 = 256 := by
    rw [get_palette_size_probe _ byte rfl rfl (by simp only; omega)]
    simp only [hlen]
    rw [if_neg (by omega)]
    have e : 128 + (imageBytes rows).length + (768 + 1) - 769 = 128 + (imageBytes rows).length := by
      omega
    rw [e, hflag, if_pos rfl]
  have hps := (get_palette_size_resolved
    (⟨⟨pcxFile 5 width colorMap rows (0x0C :: palette),
        128 + ((imageBytes rows).length : Nat)⟩, width, height, height, sr, 5⟩ : PCXFile)
      byte rfl).2.1
  rw [hsize] at hps
  have hbytes := get_palette_size_bytes
    (⟨⟨pcxFile 5 width colorMap rows (0x0C :: palette),
        128 + ((imageBytes rows).length : Nat)⟩, width, height, height, sr, 5⟩ : PCXFile) byte
  simp only at hbytes
  refine ⟨hsize, ?_, ?_⟩
  · rw [read_palette_256 _ pal palette_buf hps (by rw [hbytes, hlen]; omega)]
  · intro i hi
    rw [read_palette_256 _ pal palette_buf hps (by rw [hbytes, hlen]; omega)]
    simp only [paletteAt, hbytes, hlen]
    rw [if_pos hi]
    have e0 : 128 + (imageBytes rows).length + (768 + 1) - 768 + 3 * i =
        128 + (imageBytes rows).length + (3 * i + 1) := by omega
    have e1 : 128 + (imageBytes rows).length + (3 * i + 1) + 1 =
        128 + (imageBytes rows).length + (3 * i + 1 + 1) := by omega
    have e2 : 128 + (imageBytes rows).length + (3 * i + 1) + 2 =
        128 + (imageBytes rows).length + (3 * i + 2 + 1) := by omega
    rw [e0, e1, e2, pcxFile_trailer 5 width colorMap rows (0x0C :: palette) hcm,
      pcxFile_trailer 5 width colorMap rows (0x0C :: palette) hcm,
      pcxFile_trailer 5 width colorMap rows (0x0C :: palette) hcm]
    simp only [List.getD_cons_succ]

/-- C15: a file built from a 128 byte header (identification 10, 8 bits per
pixel, one plane, bounding box `0, 0, width - 1, height - 1`, the color map at
bytes 16..63), the rows of a `width` x `height` pixel matrix each encoded on
its own with runs of 1 to 63 and no literal of `0xC0` or more, and, for version
5, the byte `0x0C` and 768 palette bytes, decodes back: the open succeeds with
that width and height, `height` scanline reads succeed and deliver the rows in
order, the size query gives 16 and the color map for a version other than 5,
256 and the palette for version 5.  The run-length encoder `rleRow` writes such
an encoding for every row of pixels. -/
theorem round_trip (version width : Nat) (colorMap palette : List Nat)
    (pixels : List (List Nat)) (rows : List (List Token)) (data : PCXFile)
    (scanline : Nat → Nat) (byte : Nat) (pal : Nat → PCXPaletteEntry)
    (palette_buf : Nat → Nat)
    (hcm : colorMap.length = 48) (hpal : palette.length = 768)
    (hw1 : 1 ≤ width) (hw2 : width ≤ 65535)
    (hh1 : 1 ≤ pixels.length) (hh2 : pixels.length ≤ 65535)
    (hpix : ∀ p, p ∈ pixels → p.length = width)
    (henc : rows.map rowPixels = pixels) (hok : ∀ r, r ∈ rows → ∀ t, t ∈ r → t.ok) :
    ((pixels.map rleRow).map rowPixels = pixels ∧
      ∀ r, r ∈ pixels.map rleRow → ∀ t, t ∈ r → t.ok) ∧
    (version ≠ 5 →
      DecodesTo (pcxFile version width colorMap rows []) data scanline byte pal palette_buf
        width pixels 16 colorMap) ∧
    DecodesTo (pcxFile 5 width colorMap rows (0x0C :: palette)) data scanline byte pal
      palette_buf width pixels 256 palette := by
  have hlen : pixels.length = rows.length := by rw [← henc, List.length_map]
  have hrows : ∀ r, r ∈ rows → (∀ t, t ∈ r → t.ok) ∧ (rowPixels r).length = width := by
    intro r hr
    refine ⟨hok r hr, hpix _ ?_⟩
    rw [← henc]
    exact List.mem_map_of_mem _ hr
  have hmap : rows.map (fun r => (PCX_ERR_NONE, rowPixels r)) =
      pixels.map (fun p => (PCX_ERR_NONE, p)) := by
    rw [← henc, List.map_map]
    rfl
  rw [hlen] at hh1 hh2
  refine ⟨⟨?_, ?_⟩, ?_, ?_⟩
  · rw [List.map_map]
    conv => rhs; rw [← List.map_id pixels]
    exact List.map_congr_left (fun p _ => (rleRow_spec p).2)
  · intro r hr t ht
    obtain ⟨p, -, hp⟩ := List.mem_map.1 hr
    subst hp
    exact (rleRow_spec p).1 t ht
  · intro hv
    have hopen := pcxFile_open version width colorMap rows [] data hcm hw1 hw2 hh1 hh2
    obtain ⟨s1, s2⟩ := pcxFile_scanned version width colorMap rows [] data scanline hcm hw1
      hw2 hh1 hh2 hrows
    obtain ⟨p1, p2, p3⟩ := pcxFile_palette16 version width colorMap rows
      (128 + ((imageBytes rows).length : Nat)) rows.length 0 byte pal palette_buf hcm hv
    unfold DecodesTo
    rw [hlen, s1, s2, hopen]
    exact ⟨rfl, rfl, rfl, hmap, p1, p2, p3⟩
  · have hopen := pcxFile_open 5 width colorMap rows (0x0C :: palette) data hcm hw1 hw2 hh1 hh2
    obtain ⟨s1, s2⟩ := pcxFile_scanned 5 width colorMap rows (0x0C :: palette) data scanline
      hcm hw1 hw2 hh1 hh2 hrows
    obtain ⟨p1, p2, p3⟩ := pcxFile_palette256 width colorMap palette rows rows.length 0 byte
      pal palette_buf hcm hpal
    unfold DecodesTo
    rw [hlen, s1, s2, hopen]
    exact ⟨rfl, rfl, rfl, hmap, p1, p2, p3⟩

set_option maxRecDepth 100000 in
/-- The round trip of the 2 x 2 image `exPixels` encoded by `rleRow`, as a
version 3 file and as a version 5 file with its palette. -/
theorem round_trip_witness :
    (exColorMap.length = 48 ∧ exPaletteBytes.length = 768 ∧ 1 ≤ 2 ∧ 2 ≤ 65535 ∧
      1 ≤ exPixels.length ∧ exPixels.length ≤ 65535 ∧
      (∀ p, p ∈ exPixels → p.length = 2) ∧
      (exPixels.map rleRow).map rowPixels = exPixels ∧
      (∀ r, r ∈ exPixels.map rleRow → ∀ t, t ∈ r → t.ok)) ∧
    exPixels.map rleRow = [[Token.run 2 7], [Token.run 1 200, Token.lit 8]] ∧
    DecodesTo (pcxFile 3 2 exColorMap (exPixels.map rleRow) []) blankHandle zeroLine 0
      zeroPalette zeroLine 2 exPixels 16 exColorMap ∧
    DecodesTo (pcxFile 5 2 exColorMap (exPixels.map rleRow) (0x0C :: exPaletteBytes))
      blankHandle zeroLine 0 zeroPalette zeroLine 2 exPixels 256 exPaletteBytes :=
  have hp : ∀ p, p ∈ exPixels → p.length = 2 := by decide
  have he : (exPixels.map rleRow).map rowPixels = exPixels := by decide
  have ho : ∀ r, r ∈ exPixels.map rleRow → ∀ t, t ∈ r → t.ok := by
    intro r hr t ht
    simp only [exPixels, List.map_cons, List.map_nil, rleRow, pixelToken] at hr
    simp at hr
    rcases hr with h | h <;> subst h <;> simp at ht
    · subst ht; exact ⟨by decide, by decide⟩
    · rcases ht with h | h <;> subst h
      · exact ⟨by decide, by decide⟩
      · show 8 < 0xC0
        decide
  ⟨⟨by decide, by decide, by decide, by decide, by decide, by decide, hp, he, ho⟩,
    by decide,
    (round_trip 3 2 exColorMap exPaletteBytes exPixels (exPixels.map rleRow) blankHandle
      zeroLine 0 zeroPalette zeroLine (by decide) (by decide) (by decide) (by decide)
      (by decide) (by decide) hp he ho).2.1 (by decide),
    (round_trip 3 2 exColorMap exPaletteBytes exPixels (exPixels.map rleRow) blankHandle
      zeroLine 0 zeroPalette zeroLine (by decide) (by decide) (by decide) (by decide)
      (by decide) (by decide) hp he ho).2.2⟩

end TinyPCX
